import Mathlib

/-!
# liblorgnette: remote Mach-O symbol lookup

A shallow embedding of `src/lorgnette.c`.  The target task is a partial byte
memory together with the answer of `task_info()`.  Machine integers are
natural numbers reduced modulo `2^32` or `2^64` where the C arithmetic wraps.
A C function that may stop in `assert()` or run into undefined behaviour
returns an `Outcome`.
-/

namespace Lorgnette

/-! ## Outcomes of a C call -/

/-- Result of running a C function: it returned a value, the process was
terminated by a failed `assert()`, or the C behaviour is undefined. -/
inductive Outcome (α : Type) where
  | ret (a : α) : Outcome α
  | abort : Outcome α
  | undef : Outcome α
deriving DecidableEq, Repr

/-! ## The target task and the remote read primitive -/

/-- The fields of `task_dyld_info_data_t` used by the library. -/
structure task_dyld_info_data_t where
  all_image_info_addr : Nat
  all_image_info_size : Nat
  all_image_info_format : Nat
deriving DecidableEq, Repr

/-- A target task: the answer of `task_info(TASK_DYLD_INFO)` (`none` when the
query fails) and the address space (`none` for an unmapped byte). -/
structure Task where
  dyld_info : Option task_dyld_info_data_t
  mem : Nat → Option (Fin 256)

/-- Whether the bytes `addr, ..., addr+size-1` of a memory are all mapped. -/
def readable (mem : Nat → Option (Fin 256)) (addr : Nat) : Nat → Bool
  | 0 => true
  | size + 1 =>
    match mem (addr + size) with
    | none => false
    | some _ => readable mem addr size

/-- The bytes `addr, ..., addr+size-1` of a memory (0 for an unmapped byte). -/
def fetch (mem : Nat → Option (Fin 256)) (addr size : Nat) : List Nat :=
  (List.range size).map (fun k =>
    match mem (addr + k) with
    | none => 0
    | some b => b.val)

/-- Modelled from the spec: the remote-memory reader `mach_vm_read_overwrite`
is an operating-system primitive, not part of the repository.  It has
exact-length semantics: the `size` bytes at `addr` are copied when all of
them are mapped, otherwise the call fails (`none`).  A range leaving the
64-bit address space is rejected. -/
def mach_vm_read_overwrite (t : Task) (addr size : Nat) : Option (List Nat) :=
  if addr + size ≤ 2 ^ 64 ∧ readable t.mem addr size = true then
    some (fetch t.mem addr size)
  else none

/-! ## Little-endian decoding of the platform structures -/

/-- Little-endian value of a byte list. -/
def le_value : List Nat → Nat
  | [] => 0
  | b :: bs => b + 256 * le_value bs

/-- The `width`-byte little-endian field at byte offset `off`. -/
def field (bs : List Nat) (off width : Nat) : Nat :=
  le_value ((bs.drop off).take width)

def MH_MAGIC : Nat := 0xFEEDFACE
def MH_MAGIC_64 : Nat := 0xFEEDFACF
def LC_SEGMENT : Nat := 0x1
def LC_SYMTAB : Nat := 0x2
def LC_SEGMENT_64 : Nat := 0x19
def kImageFromSharedCacheFlag : Nat := 0x80000000
def kRemoteStringBufferSize : Nat := 2048
def ki386DefaultBaseAddress : Nat := 0x1000
def kx86_64DefaultBaseAddress : Nat := 0x100000000
def TASK_DYLD_ALL_IMAGE_INFO_32 : Nat := 0
def TASK_DYLD_ALL_IMAGE_INFO_64 : Nat := 1

/-- The segment name `__TEXT` as bytes. -/
def SEG_TEXT : List Nat := [95, 95, 84, 69, 88, 84]
/-- The segment name `__LINKEDIT` as bytes. -/
def SEG_LINKEDIT : List Nat := [95, 95, 76, 73, 78, 75, 69, 68, 73, 84]

/-- Modelled from the spec: `struct mach_header` of `<mach-o/loader.h>` is a
platform declaration outside the repository; 28 bytes, `magic` at 0, `ncmds`
at 16, `flags` at 24 (`struct mach_header_64` adds a reserved word: 32
bytes). -/
structure mach_header where
  magic : Nat
  ncmds : Nat
  flags : Nat
deriving DecidableEq, Repr

def sizeof_mach_header : Nat := 28
def sizeof_mach_header_64 : Nat := 32

def mach_header.decode (bs : List Nat) : mach_header :=
  { magic := field bs 0 4, ncmds := field bs 16 4, flags := field bs 24 4 }

/-- Modelled from the spec: `struct load_command` of `<mach-o/loader.h>`;
8 bytes, `cmd` at 0, `cmdsize` at 4. -/
structure load_command where
  cmd : Nat
  cmdsize : Nat
deriving DecidableEq, Repr

def sizeof_load_command : Nat := 8

def load_command.decode (bs : List Nat) : load_command :=
  { cmd := field bs 0 4, cmdsize := field bs 4 4 }

/-- Modelled from the spec: `struct symtab_command` of `<mach-o/loader.h>`;
24 bytes, `symoff` at 8, `nsyms` at 12, `stroff` at 16. -/
structure symtab_command where
  symoff : Nat
  nsyms : Nat
  stroff : Nat
deriving DecidableEq, Repr

def sizeof_symtab_command : Nat := 24

def symtab_command.decode (bs : List Nat) : symtab_command :=
  { symoff := field bs 8 4, nsyms := field bs 12 4, stroff := field bs 16 4 }

/-- Modelled from the spec: the fields of `struct segment_command` (56 bytes,
`vmaddr` at 24 and `fileoff` at 32, 4 bytes each) and of
`struct segment_command_64` (72 bytes, `vmaddr` at 24 and `fileoff` at 40,
8 bytes each) of `<mach-o/loader.h>` that the scanner uses. -/
structure segment_command where
  vmaddr : Nat
  fileoff : Nat
deriving DecidableEq, Repr

def sizeof_segment_command : Nat := 56
def sizeof_segment_command_64 : Nat := 72

def segment_command.decode (bs : List Nat) : segment_command :=
  { vmaddr := field bs 24 4, fileoff := field bs 32 4 }

def segment_command.decode64 (bs : List Nat) : segment_command :=
  { vmaddr := field bs 24 8, fileoff := field bs 40 8 }

/-- Modelled from the spec: the fields of `struct nlist` (12 bytes, `n_strx`
at 0, 4-byte `n_value` at 8) and `struct nlist_64` (16 bytes, `n_strx` at 0,
8-byte `n_value` at 8) of `<mach-o/nlist.h>` that the scanner uses. -/
structure nlist where
  n_strx : Nat
  n_value : Nat
deriving DecidableEq, Repr

def sizeof_nlist : Nat := 12
def sizeof_nlist_64 : Nat := 16

def nlist.decode (bs : List Nat) : nlist :=
  { n_strx := field bs 0 4, n_value := field bs 8 4 }

def nlist.decode64 (bs : List Nat) : nlist :=
  { n_strx := field bs 0 4, n_value := field bs 8 8 }

/-! ## `_copyin_string` -/

/-- The C string held by a buffer: the bytes before the first NUL
(`strdup`). -/
def strdup (buf : List Nat) : List Nat :=
  buf.takeWhile (fun b => b != 0)

/-- The function `_copyin_string`: read a window of 2048 bytes, NUL-terminate
it at the last byte and duplicate the C string.  Both `assert`s stop the
process. -/
def _copyin_string (t : Task) (pointer : Nat) : Outcome (List Nat) :=
  if pointer = 0 then Outcome.abort
  else
    match mach_vm_read_overwrite t pointer kRemoteStringBufferSize with
    | none => Outcome.abort
    | some buf => Outcome.ret (strdup (buf.set (kRemoteStringBufferSize - 1) 0))

/-! ## `_scan_remote_image_for_symbol` -/

/-- The test `0 == strcmp(symbol_name, symname) || 0 == strcmp(symbol_name,
symname+1)`.  The second comparison is only evaluated when the first fails;
for an empty `symname` the pointer `symname+1` is past the end of the
duplicated string and reading it is undefined. -/
def name_matches (symbol_name symname : List Nat) : Outcome Bool :=
  if symbol_name = symname then Outcome.ret true
  else
    match symname with
    | [] => Outcome.undef
    | _ :: rest => Outcome.ret (decide (symbol_name = rest))

/-- The load-command loop of the scanner, with `n` commands left to visit.
Returns `none` when a remote read fails (`goto fail`), otherwise the three
recorded addresses `(symtab_addr, linkedit_addr, text_addr)`. -/
def walk_load_commands (t : Task) :
    Nat → Nat → Nat → Nat → Nat → Outcome (Option (Nat × Nat × Nat))
  | 0, _, symtab_addr, linkedit_addr, text_addr =>
    Outcome.ret (some (symtab_addr, linkedit_addr, text_addr))
  | n + 1, command_addr, symtab_addr, linkedit_addr, text_addr =>
    match mach_vm_read_overwrite t command_addr sizeof_load_command with
    | none => Outcome.ret none
    | some cb =>
      let command := load_command.decode cb
      let next := (command_addr + command.cmdsize) % 2 ^ 64
      if command.cmd = LC_SYMTAB then
        walk_load_commands t n next command_addr linkedit_addr text_addr
      else if command.cmd = LC_SEGMENT ∨ command.cmd = LC_SEGMENT_64 then
        let segname_addr := (command_addr + sizeof_load_command) % 2 ^ 64
        match _copyin_string t segname_addr with
        | Outcome.abort => Outcome.abort
        | Outcome.undef => Outcome.undef
        | Outcome.ret segname =>
          if SEG_TEXT = segname then
            walk_load_commands t n next symtab_addr linkedit_addr command_addr
          else if SEG_LINKEDIT = segname then
            walk_load_commands t n next symtab_addr command_addr text_addr
          else
            walk_load_commands t n next symtab_addr linkedit_addr text_addr
      else
        walk_load_commands t n next symtab_addr linkedit_addr text_addr

/-- The symbol loop of the 64-bit path with `n` entries left; `strings` and
`sym_addr` are `uint64_t`.  Returns the matched `n_value`, or 0 when the
table is exhausted or an entry cannot be read. -/
def scan_symbols_64 (t : Task) (symbol_name : List Nat) (strings : Nat) :
    Nat → Nat → Outcome Nat
  | 0, _ => Outcome.ret 0
  | n + 1, sym_addr =>
    match mach_vm_read_overwrite t sym_addr sizeof_nlist_64 with
    | none => Outcome.ret 0
    | some sb =>
      let sym := nlist.decode64 sb
      let next := (sym_addr + sizeof_nlist_64) % 2 ^ 64
      if sym.n_value = 0 then scan_symbols_64 t symbol_name strings n next
      else
        let symname_addr := (strings + sym.n_strx) % 2 ^ 64
        match _copyin_string t symname_addr with
        | Outcome.abort => Outcome.abort
        | Outcome.undef => Outcome.undef
        | Outcome.ret symname =>
          match name_matches symbol_name symname with
          | Outcome.abort => Outcome.abort
          | Outcome.undef => Outcome.undef
          | Outcome.ret true => Outcome.ret sym.n_value
          | Outcome.ret false => scan_symbols_64 t symbol_name strings n next

/-- The symbol loop of the 32-bit path with `n` entries left; `strings` and
`sym_addr` are `uint32_t` and wrap modulo `2^32`. -/
def scan_symbols_32 (t : Task) (symbol_name : List Nat) (strings : Nat) :
    Nat → Nat → Outcome Nat
  | 0, _ => Outcome.ret 0
  | n + 1, sym_addr =>
    match mach_vm_read_overwrite t sym_addr sizeof_nlist with
    | none => Outcome.ret 0
    | some sb =>
      let sym := nlist.decode sb
      let next := (sym_addr + sizeof_nlist) % 2 ^ 32
      if sym.n_value = 0 then scan_symbols_32 t symbol_name strings n next
      else
        let symname_addr := (strings + sym.n_strx) % 2 ^ 32
        match _copyin_string t symname_addr with
        | Outcome.abort => Outcome.abort
        | Outcome.undef => Outcome.undef
        | Outcome.ret symname =>
          match name_matches symbol_name symname with
          | Outcome.abort => Outcome.abort
          | Outcome.undef => Outcome.undef
          | Outcome.ret true => Outcome.ret sym.n_value
          | Outcome.ret false => scan_symbols_32 t symbol_name strings n next

/-- The local variables of the scanner at the entry of its symbol loop: the
bitness of the image, the `strings` and `sym_addr` bases and `symtab.nsyms`. -/
structure symbol_table where
  sixtyfourbit : Bool
  strings : Nat
  sym_addr : Nat
  nsyms : Nat
deriving DecidableEq, Repr

/-- The part of the scanner between the load-command loop and the symbol
loop: check the three recorded addresses, read the symtab command and the
two segment commands and compute the bases.  `none` stands for `return 0`
(a command is missing or a remote read failed). -/
def locate_symbol_table (t : Task) (remote_header : Nat) (sixtyfourbit : Bool)
    (symtab_addr linkedit_addr text_addr : Nat) : Option symbol_table :=
  if symtab_addr = 0 ∨ linkedit_addr = 0 ∨ text_addr = 0 then none
  else
    match mach_vm_read_overwrite t symtab_addr sizeof_symtab_command with
    | none => none
    | some stb =>
      let symtab := symtab_command.decode stb
      if sixtyfourbit then
        match mach_vm_read_overwrite t linkedit_addr sizeof_segment_command_64 with
        | none => none
        | some lb =>
          match mach_vm_read_overwrite t text_addr sizeof_segment_command_64 with
          | none => none
          | some xb =>
            let linkedit := segment_command.decode64 lb
            let text := segment_command.decode64 xb
            let file_slide :=
              (linkedit.vmaddr + 2 ^ 64 - text.vmaddr % 2 ^ 64
                + 2 ^ 64 - linkedit.fileoff % 2 ^ 64) % 2 ^ 64
            some { sixtyfourbit := true,
                   strings := (remote_header + symtab.stroff + file_slide) % 2 ^ 64,
                   sym_addr := (remote_header + symtab.symoff + file_slide) % 2 ^ 64,
                   nsyms := symtab.nsyms }
      else
        match mach_vm_read_overwrite t linkedit_addr sizeof_segment_command with
        | none => none
        | some lb =>
          match mach_vm_read_overwrite t text_addr sizeof_segment_command with
          | none => none
          | some xb =>
            let linkedit := segment_command.decode lb
            let text := segment_command.decode xb
            let file_slide :=
              (linkedit.vmaddr + 2 ^ 32 - text.vmaddr % 2 ^ 32
                + 2 ^ 32 - linkedit.fileoff % 2 ^ 32) % 2 ^ 32
            some { sixtyfourbit := false,
                   strings := (remote_header % 2 ^ 32 + symtab.stroff + file_slide) % 2 ^ 32,
                   sym_addr := (remote_header % 2 ^ 32 + symtab.symoff + file_slide) % 2 ^ 32,
                   nsyms := symtab.nsyms }

/-- The symbol loop of the image's bitness, run on the located table. -/
def scan_symbols (t : Task) (symbol_name : List Nat) (st : symbol_table) : Outcome Nat :=
  if st.sixtyfourbit then scan_symbols_64 t symbol_name st.strings st.nsyms st.sym_addr
  else scan_symbols_32 t symbol_name st.strings st.nsyms st.sym_addr

/-- The value of `*imageFromSharedCache` computed from the header flags. -/
def from_shared_cache (header : mach_header) : Bool :=
  decide (header.flags &&& kImageFromSharedCacheFlag = kImageFromSharedCacheFlag)

/-- The address of the first load command: `remote_header` plus the size of
the Mach-O header of the image's bitness. -/
def first_command_addr (remote_header : Nat) (sixtyfourbit : Bool) : Nat :=
  (remote_header + (if sixtyfourbit then sizeof_mach_header_64 else sizeof_mach_header))
    % 2 ^ 64

/-- The function `_scan_remote_image_for_symbol`.  The second component of
the result is the value of `*imageFromSharedCache` after the call; the
argument `imageFromSharedCache` is its value before. -/
def _scan_remote_image_for_symbol (t : Task) (remote_header : Nat)
    (symbol_name : List Nat) (imageFromSharedCache : Bool) : Outcome (Nat × Bool) :=
  if remote_header = 0 then Outcome.abort
  else
    match mach_vm_read_overwrite t remote_header sizeof_mach_header with
    | none => Outcome.ret (0, imageFromSharedCache)
    | some hb =>
      let header := mach_header.decode hb
      let sixtyfourbit := decide (header.magic = MH_MAGIC_64)
      if header.magic ≠ MH_MAGIC ∧ header.magic ≠ MH_MAGIC_64 then
        Outcome.ret (0, from_shared_cache header)
      else
        let command_addr := first_command_addr remote_header sixtyfourbit
        match walk_load_commands t header.ncmds command_addr 0 0 0 with
        | Outcome.abort => Outcome.abort
        | Outcome.undef => Outcome.undef
        | Outcome.ret none => Outcome.ret (0, from_shared_cache header)
        | Outcome.ret (some (symtab_addr, linkedit_addr, text_addr)) =>
          match locate_symbol_table t remote_header sixtyfourbit
              symtab_addr linkedit_addr text_addr with
          | none => Outcome.ret (0, from_shared_cache header)
          | some st =>
            match scan_symbols t symbol_name st with
            | Outcome.abort => Outcome.abort
            | Outcome.undef => Outcome.undef
            | Outcome.ret v => Outcome.ret (v, from_shared_cache header)

/-! ## Image-list enumeration -/

def KERN_SUCCESS : Nat := 0
def KERN_FAILURE : Nat := 5

/-- Modelled from the spec: `struct dyld_all_image_infos_32/_64` and
`struct dyld_image_info_32/_64` are declared in `lorgnette-structs.h`, which
is not among the sources.  The layout is the platform one of
`<mach-o/dyld_images.h>`: `infoArrayCount` at 4, `infoArray` at 8,
`sharedCacheSlide` at 80 (32-bit record) or 152 (64-bit record); an array
entry is three pointers with `imageLoadAddress` first. -/
structure dyld_all_image_infos where
  infoArrayCount : Nat
  infoArray : Nat
  sharedCacheSlide : Nat
deriving DecidableEq, Repr

def dyld_all_image_infos.decode32 (bs : List Nat) : dyld_all_image_infos :=
  { infoArrayCount := field bs 4 4, infoArray := field bs 8 4,
    sharedCacheSlide := field bs 80 4 }

def dyld_all_image_infos.decode64 (bs : List Nat) : dyld_all_image_infos :=
  { infoArrayCount := field bs 4 4, infoArray := field bs 8 8,
    sharedCacheSlide := field bs 152 8 }

def sizeof_dyld_image_info_32 : Nat := 12
def sizeof_dyld_image_info_64 : Nat := 24

/-- Modelled from the spec: the size of the local `infos` structure of the
enumerators, `sizeof(struct dyld_all_image_infos_32)`; the declaration
(`lorgnette-structs.h`) is not among the sources.  The structure is taken to
end with `sharedCacheSlide`, the last field the code reads: a record of more
than this many bytes does not fit `infos`. -/
def sizeof_dyld_all_image_infos_32 : Nat := 84

/-- Modelled from the spec: the 64-bit counterpart of
`sizeof_dyld_all_image_infos_32`, `sizeof(struct dyld_all_image_infos_64)`. -/
def sizeof_dyld_all_image_infos_64 : Nat := 160

/-- The values `array[i].imageLoadAddress` for `i = 0, ..., count-1`, decoded
from the bytes of the entry array (`width` bytes each, one per `stride`). -/
def load_addresses (bs : List Nat) (stride width : Nat) : Nat → List Nat
  | 0 => []
  | count + 1 =>
    load_addresses bs stride width count ++ [field bs (stride * count) width]

/-- What an enumerator call leaves behind: its return code and the contents
of the out-parameters `*count`, `headers[0 .. count)` (empty when `headers`
is `NULL`) and `*shared_cache_slide`. -/
structure image_headers where
  err : Nat
  count : Nat
  headers : List Nat
  shared_cache_slide : Nat
deriving DecidableEq, Repr

/-- The function `_image_headers_from_dyld_info64`.  `want_headers` tells
whether `headers` is non-`NULL`; `count` and `shared_cache_slide` are the
values of the out-parameters before the call.  When the first read fails,
`goto fail` frees the not yet initialised `array`: undefined.  The read
copies `all_image_info_size` bytes into the local `infos`: a record larger
than `infos` overflows it, undefined; a record too short to hold the fields
that are used leaves them uninitialised, undefined.  `malloc` is taken to
succeed. -/
def _image_headers_from_dyld_info64 (t : Task) (dyld_info : task_dyld_info_data_t)
    (want_headers : Bool) (_count shared_cache_slide : Nat) : Outcome image_headers :=
  match mach_vm_read_overwrite t dyld_info.all_image_info_addr
      dyld_info.all_image_info_size with
  | none => Outcome.undef
  | some ib =>
    if sizeof_dyld_all_image_infos_64 < dyld_info.all_image_info_size then Outcome.undef
    else if dyld_info.all_image_info_size < 160 then Outcome.undef
    else
      let infos := dyld_all_image_infos.decode64 ib
      let count := infos.infoArrayCount
      match mach_vm_read_overwrite t infos.infoArray
          (sizeof_dyld_image_info_64 * count) with
      | none =>
        Outcome.ret { err := KERN_FAILURE, count := count, headers := [],
                      shared_cache_slide := shared_cache_slide }
      | some ab =>
        Outcome.ret
          { err := KERN_SUCCESS, count := count,
            headers :=
              if want_headers then load_addresses ab sizeof_dyld_image_info_64 8 count
              else [],
            shared_cache_slide := infos.sharedCacheSlide }

/-- The function `_image_headers_from_dyld_info32`.  As the 64-bit variant,
except that `*shared_cache_slide` is stored before the second read. -/
def _image_headers_from_dyld_info32 (t : Task) (dyld_info : task_dyld_info_data_t)
    (want_headers : Bool) (_count _shared_cache_slide : Nat) : Outcome image_headers :=
  match mach_vm_read_overwrite t dyld_info.all_image_info_addr
      dyld_info.all_image_info_size with
  | none => Outcome.undef
  | some ib =>
    if sizeof_dyld_all_image_infos_32 < dyld_info.all_image_info_size then Outcome.undef
    else if dyld_info.all_image_info_size < 84 then Outcome.undef
    else
      let infos := dyld_all_image_infos.decode32 ib
      let count := infos.infoArrayCount
      match mach_vm_read_overwrite t infos.infoArray
          (sizeof_dyld_image_info_32 * count) with
      | none =>
        Outcome.ret { err := KERN_FAILURE, count := count, headers := [],
                      shared_cache_slide := infos.sharedCacheSlide }
      | some ab =>
        Outcome.ret
          { err := KERN_SUCCESS, count := count,
            headers :=
              if want_headers then load_addresses ab sizeof_dyld_image_info_32 4 count
              else [],
            shared_cache_slide := infos.sharedCacheSlide }

/-- The function `_image_headers_in_task`: query `task_info()` and branch on
the record format. -/
def _image_headers_in_task (t : Task) (want_headers : Bool)
    (count shared_cache_slide : Nat) : Outcome image_headers :=
  match t.dyld_info with
  | none =>
    Outcome.ret { err := KERN_FAILURE, count := count, headers := [],
                  shared_cache_slide := shared_cache_slide }
  | some data =>
    if data.all_image_info_format = TASK_DYLD_ALL_IMAGE_INFO_32 then
      _image_headers_from_dyld_info32 t data want_headers count shared_cache_slide
    else
      _image_headers_from_dyld_info64 t data want_headers count shared_cache_slide

/-! ## `lorgnette_lookup` -/

/-- The main-image rebase applied to a match in image 0: subtract the default
base selected by the value itself, then add `headers[0]` (`uint64_t`
arithmetic). -/
def rebase_main (result header0 : Nat) : Nat :=
  if result < kx86_64DefaultBaseAddress then
    ((result + 2 ^ 64 - ki386DefaultBaseAddress) % 2 ^ 64 + header0) % 2 ^ 64
  else
    ((result - kx86_64DefaultBaseAddress) % 2 ^ 64 + header0) % 2 ^ 64

/-- The image loop of `lorgnette_lookup` from index `i` on, `rest` being
`headers[i ..]`.  Returns the final values of `result` and
`imageFromSharedCache`. -/
def lookup_loop (t : Task) (symbol_name : List Nat) (headers : List Nat) :
    Nat → List Nat → Nat → Bool → Outcome (Nat × Bool)
  | _, [], result, imageFromSharedCache => Outcome.ret (result, imageFromSharedCache)
  | i, image :: rest, _, imageFromSharedCache =>
    match _scan_remote_image_for_symbol t image symbol_name imageFromSharedCache with
    | Outcome.abort => Outcome.abort
    | Outcome.undef => Outcome.undef
    | Outcome.ret (result, fromCache) =>
      if result > 0 then
        if i = 0 then Outcome.ret (rebase_main result (headers.getD 0 0), fromCache)
        else Outcome.ret (result, fromCache)
      else lookup_loop t symbol_name headers (i + 1) rest result fromCache

/-- What `lorgnette_lookup` does with the header list once it has it: run the
image loop and add the shared-cache slide when the flag is set. -/
def lookup_in_headers (t : Task) (symbol_name : List Nat) (headers : List Nat)
    (shared_cache_slide : Nat) : Outcome Nat :=
  match lookup_loop t symbol_name headers 0 headers 0 false with
  | Outcome.abort => Outcome.abort
  | Outcome.undef => Outcome.undef
  | Outcome.ret (result, imageFromSharedCache) =>
    if imageFromSharedCache then Outcome.ret ((result + shared_cache_slide) % 2 ^ 64)
    else Outcome.ret result

/-- The function `lorgnette_lookup`.  The symbol name is the content of the C
string; `assert(strlen(symbol_name) > 0)` stops the process for the empty
name. -/
def lorgnette_lookup (t : Task) (symbol_name : List Nat) : Outcome Nat :=
  if symbol_name = [] then Outcome.abort
  else
    match _image_headers_in_task t false 0 0 with
    | Outcome.abort => Outcome.abort
    | Outcome.undef => Outcome.undef
    | Outcome.ret first =>
      if first.err ≠ KERN_SUCCESS then Outcome.ret 0
      else
        match _image_headers_in_task t true first.count first.shared_cache_slide with
        | Outcome.abort => Outcome.abort
        | Outcome.undef => Outcome.undef
        | Outcome.ret second =>
          if second.err ≠ KERN_SUCCESS then Outcome.ret 0
          else lookup_in_headers t symbol_name second.headers second.shared_cache_slide

/-! ## Vocabulary for the statements -/

/-- The header list and shared-cache slide `lorgnette_lookup` works with when
both of its enumerator calls succeed (`none` otherwise). -/
def image_list (t : Task) : Option (List Nat × Nat) :=
  match _image_headers_in_task t false 0 0 with
  | Outcome.ret first =>
    if first.err = KERN_SUCCESS then
      match _image_headers_in_task t true first.count first.shared_cache_slide with
      | Outcome.ret second =>
        if second.err = KERN_SUCCESS then
          some (second.headers, second.shared_cache_slide)
        else none
      | _ => none
    else none
  | _ => none

/-- The function `lorgnette_lookup` on a target that changes between the two
enumerator calls: `first_state` is the target during the first call,
`t` the target from the second call on.  The list allocated after the first
call has room for the count read then; a second call that succeeds with a
larger count writes past its end, which is undefined. -/
def lorgnette_lookup_changing (first_state t : Task) (symbol_name : List Nat) : Outcome Nat :=
  if symbol_name = [] then Outcome.abort
  else
    match _image_headers_in_task first_state false 0 0 with
    | Outcome.abort => Outcome.abort
    | Outcome.undef => Outcome.undef
    | Outcome.ret first =>
      if first.err ≠ KERN_SUCCESS then Outcome.ret 0
      else
        match _image_headers_in_task t true first.count first.shared_cache_slide with
        | Outcome.abort => Outcome.abort
        | Outcome.undef => Outcome.undef
        | Outcome.ret second =>
          if second.err ≠ KERN_SUCCESS then Outcome.ret 0
          else if first.count < second.count then Outcome.undef
          else lookup_in_headers t symbol_name second.headers second.shared_cache_slide

/-- The count an enumerator call leaves in `*count` when it returns
`KERN_SUCCESS`. -/
def Outcome.ret_count : Outcome image_headers → Option Nat
  | Outcome.ret r => if r.err = KERN_SUCCESS then some r.count else none
  | _ => none

/-- The Mach-O header of the image at `remote_header`, when it can be read. -/
def image_header (t : Task) (remote_header : Nat) : Option mach_header :=
  (mach_vm_read_overwrite t remote_header sizeof_mach_header).map mach_header.decode

/-- The symbol table the scanner locates in the image at `remote_header`:
`none` when the scanner does not reach its symbol loop. -/
def image_symbol_table (t : Task) (remote_header : Nat) : Option symbol_table :=
  if remote_header = 0 then none
  else
    match image_header t remote_header with
    | none => none
    | some header =>
      if header.magic ≠ MH_MAGIC ∧ header.magic ≠ MH_MAGIC_64 then none
      else
        let sixtyfourbit := decide (header.magic = MH_MAGIC_64)
        match walk_load_commands t header.ncmds
            (first_command_addr remote_header sixtyfourbit) 0 0 0 with
        | Outcome.ret (some (symtab_addr, linkedit_addr, text_addr)) =>
          locate_symbol_table t remote_header sixtyfourbit symtab_addr linkedit_addr text_addr
        | _ => none

/-- A load command as the walk sees it: its address, its `(cmd, cmdsize)`
prefix and, for a segment command, the segment name read at offset 8. -/
structure visited_command where
  addr : Nat
  command : load_command
  segname : Option (List Nat)
deriving DecidableEq, Repr

/-- The load commands visited by a walk of `n` commands from `command_addr`
that runs to its end (`none` when a prefix read fails). -/
def visited_commands (t : Task) : Nat → Nat → Outcome (Option (List visited_command))
  | 0, _ => Outcome.ret (some [])
  | n + 1, command_addr =>
    match mach_vm_read_overwrite t command_addr sizeof_load_command with
    | none => Outcome.ret none
    | some cb =>
      let command := load_command.decode cb
      let next := (command_addr + command.cmdsize) % 2 ^ 64
      if command.cmd = LC_SEGMENT ∨ command.cmd = LC_SEGMENT_64 then
        match _copyin_string t ((command_addr + sizeof_load_command) % 2 ^ 64) with
        | Outcome.abort => Outcome.abort
        | Outcome.undef => Outcome.undef
        | Outcome.ret segname =>
          match visited_commands t n next with
          | Outcome.ret (some rest) =>
            Outcome.ret (some ({ addr := command_addr, command := command,
                                 segname := some segname } :: rest))
          | other => other
      else
        match visited_commands t n next with
        | Outcome.ret (some rest) =>
          Outcome.ret (some ({ addr := command_addr, command := command,
                               segname := none } :: rest))
        | other => other

/-- The address of the last visited command satisfying `p`, or `init` when
there is none. -/
def last_addr (p : visited_command → Bool) : List visited_command → Nat → Nat
  | [], init => init
  | c :: rest, init => last_addr p rest (if p c then c.addr else init)

/-- The commands `cmds` are what a walk from `command_addr` reads: each
command lies where the previous one ends (`a_(k+1) = a_k + cmdsize_k` in
`uint64_t` arithmetic), its prefix is readable there and, for a segment
command, its name is the C string read at offset 8. -/
def command_chain (t : Task) : Nat → List visited_command → Prop
  | _, [] => True
  | command_addr, c :: rest =>
    c.addr = command_addr
      ∧ (mach_vm_read_overwrite t command_addr sizeof_load_command).map load_command.decode
          = some c.command
      ∧ (if c.command.cmd = LC_SEGMENT ∨ c.command.cmd = LC_SEGMENT_64 then
          ∃ segname, c.segname = some segname
            ∧ _copyin_string t ((command_addr + 8) % 2 ^ 64) = Outcome.ret segname
         else c.segname = none)
      ∧ command_chain t ((command_addr + c.command.cmdsize) % 2 ^ 64) rest

/-- The address `recorded` by the walk for the commands satisfying `p`: the
address of one of them, or 0 when there is none. -/
def recorded_for (p : visited_command → Prop) (cmds : List visited_command)
    (recorded : Nat) : Prop :=
  (recorded = 0 ∧ ∀ c ∈ cmds, ¬ p c) ∨ (∃ c ∈ cmds, p c ∧ c.addr = recorded)

/-- Size of a symbol entry of the table. -/
def entry_size (st : symbol_table) : Nat :=
  if st.sixtyfourbit then sizeof_nlist_64 else sizeof_nlist

/-- The modulus of the address arithmetic of the symbol loop: `uint64_t` in
the 64-bit path, `uint32_t` in the 32-bit path. -/
def address_modulus (st : symbol_table) : Nat :=
  if st.sixtyfourbit then 2 ^ 64 else 2 ^ 32

/-- The address at which the symbol loop reads entry `i`. -/
def entry_addr (st : symbol_table) (i : Nat) : Nat :=
  (st.sym_addr + entry_size st * i) % address_modulus st

/-- Entry `i` of the table, when it can be read. -/
def symbol_entry (t : Task) (st : symbol_table) (i : Nat) : Option nlist :=
  (mach_vm_read_overwrite t (entry_addr st i) (entry_size st)).map
    (if st.sixtyfourbit then nlist.decode64 else nlist.decode)

/-- The address at which the symbol loop reads the name of an entry. -/
def symbol_name_addr (st : symbol_table) (sym : nlist) : Nat :=
  (st.strings + sym.n_strx) % address_modulus st

/-- The symbol loop as a function of the entry index: `n` entries are left,
the next one has index `i`.  Both source loops are instances of it
(`scan_symbols_64_eq_from`, `scan_symbols_32_eq_from`). -/
def scan_symbols_from (t : Task) (symbol_name : List Nat) (st : symbol_table) :
    Nat → Nat → Outcome Nat
  | 0, _ => Outcome.ret 0
  | n + 1, i =>
    match symbol_entry t st i with
    | none => Outcome.ret 0
    | some sym =>
      if sym.n_value = 0 then scan_symbols_from t symbol_name st n (i + 1)
      else
        match _copyin_string t (symbol_name_addr st sym) with
        | Outcome.abort => Outcome.abort
        | Outcome.undef => Outcome.undef
        | Outcome.ret symname =>
          match name_matches symbol_name symname with
          | Outcome.abort => Outcome.abort
          | Outcome.undef => Outcome.undef
          | Outcome.ret true => Outcome.ret sym.n_value
          | Outcome.ret false => scan_symbols_from t symbol_name st n (i + 1)

/-- Entry `i` of the table has a non-zero value and a readable name that
passes the scanner's name test for `symbol_name`. -/
def entry_matches (t : Task) (symbol_name : List Nat) (st : symbol_table) (i : Nat) : Prop :=
  ∃ sym symname, symbol_entry t st i = some sym ∧ sym.n_value ≠ 0
    ∧ _copyin_string t (symbol_name_addr st sym) = Outcome.ret symname
    ∧ name_matches symbol_name symname = Outcome.ret true

/-- The stored names of the non-zero entries `i, ..., i+n-1` of the table, up
to the first entry or name that cannot be read. -/
def symbol_names (t : Task) (st : symbol_table) : Nat → Nat → List (List Nat)
  | 0, _ => []
  | n + 1, i =>
    match symbol_entry t st i with
    | none => []
    | some sym =>
      if sym.n_value = 0 then symbol_names t st n (i + 1)
      else
        match _copyin_string t (symbol_name_addr st sym) with
        | Outcome.ret symname => symname :: symbol_names t st n (i + 1)
        | _ => []

/-- The stored names of the non-zero symbol entries of the image at
`remote_header`, as far as the scanner can read them. -/
def image_symbol_names (t : Task) (remote_header : Nat) : List (List Nat) :=
  match image_symbol_table t remote_header with
  | none => []
  | some st => symbol_names t st st.nsyms 0

/-! ## Concrete targets

Small address spaces holding hand-made Mach-O images, used to evaluate the
definitions. -/

/-- The `width` little-endian bytes of `v`. -/
def le_bytes : Nat → Nat → List Nat
  | 0, _ => []
  | width + 1, v => v % 256 :: le_bytes width (v / 256)

/-- The cells `(addr + i, bs[i])` of a byte string placed at `addr`. -/
def poke : Nat → List Nat → List (Nat × Nat)
  | _, [] => []
  | addr, b :: bs => (addr, b) :: poke (addr + 1) bs

/-- A little-endian integer of `width` bytes placed at `addr`. -/
def poke_le (addr width v : Nat) : List (Nat × Nat) :=
  poke addr (le_bytes width v)

/-- An address space: the bytes `lo ≤ a < hi` are mapped, with the content
given by `cells` and 0 elsewhere. -/
def memory_of (lo hi : Nat) (cells : List (Nat × Nat)) (a : Nat) : Option (Fin 256) :=
  match Nat.ble lo a && Nat.blt a hi with
  | true => some (Fin.ofNat ((cells.lookup a).getD 0))
  | false => none

/-- Symbol entries `(n_strx, n_value)` placed from `addr` on, `stride` bytes
each with an `n_value` of `width` bytes at offset 8. -/
def poke_symbols (stride width : Nat) : Nat → List (Nat × Nat) → List (Nat × Nat)
  | _, [] => []
  | addr, (strx, value) :: rest =>
    poke_le addr 4 strx ++ poke_le (addr + 8) width value
      ++ poke_symbols stride width (addr + stride) rest

/-- A 32-bit image at `h`: header, the commands `__TEXT`, `__LINKEDIT` and
`LC_SYMTAB`, the symbol entries at `h + 0x100` and the string table at
`h + 0x200` (file slide 0). -/
def image32 (h flags : Nat) (syms : List (Nat × Nat)) (strtab : List Nat) :
    List (Nat × Nat) :=
  poke_le h 4 MH_MAGIC ++ poke_le (h + 16) 4 3 ++ poke_le (h + 24) 4 flags
    ++ poke_le (h + 28) 4 LC_SEGMENT ++ poke_le (h + 32) 4 56 ++ poke (h + 36) SEG_TEXT
    ++ poke_le (h + 52) 4 0x1000
    ++ poke_le (h + 84) 4 LC_SEGMENT ++ poke_le (h + 88) 4 56 ++ poke (h + 92) SEG_LINKEDIT
    ++ poke_le (h + 108) 4 0x1100 ++ poke_le (h + 116) 4 0x100
    ++ poke_le (h + 140) 4 LC_SYMTAB ++ poke_le (h + 144) 4 24
    ++ poke_le (h + 148) 4 0x100 ++ poke_le (h + 152) 4 syms.length
    ++ poke_le (h + 156) 4 0x200
    ++ poke_symbols 12 4 (h + 0x100) syms ++ poke (h + 0x200) strtab

/-- A 64-bit image at `h`, laid out like `image32` with the 64-bit
structures. -/
def image64 (h flags : Nat) (syms : List (Nat × Nat)) (strtab : List Nat) :
    List (Nat × Nat) :=
  poke_le h 4 MH_MAGIC_64 ++ poke_le (h + 16) 4 3 ++ poke_le (h + 24) 4 flags
    ++ poke_le (h + 32) 4 LC_SEGMENT_64 ++ poke_le (h + 36) 4 72 ++ poke (h + 40) SEG_TEXT
    ++ poke_le (h + 56) 8 0x100000000
    ++ poke_le (h + 104) 4 LC_SEGMENT_64 ++ poke_le (h + 108) 4 72
    ++ poke (h + 112) SEG_LINKEDIT
    ++ poke_le (h + 128) 8 0x100000100 ++ poke_le (h + 144) 8 0x100
    ++ poke_le (h + 176) 4 LC_SYMTAB ++ poke_le (h + 180) 4 24
    ++ poke_le (h + 184) 4 0x100 ++ poke_le (h + 188) 4 syms.length
    ++ poke_le (h + 192) 4 0x200
    ++ poke_symbols 16 8 (h + 0x100) syms ++ poke (h + 0x200) strtab

/-- Array entries of `stride` bytes placed from `addr` on, each starting
with a load address of `width` bytes. -/
def poke_entries (stride width : Nat) : Nat → List Nat → List (Nat × Nat)
  | _, [] => []
  | addr, h :: rest => poke_le addr width h ++ poke_entries stride width (addr + stride) rest

/-- A 64-bit all-images record at `r` (160 bytes) followed by its entry array
at `r + 160`. -/
def registry64 (r slide : Nat) (headers : List Nat) : List (Nat × Nat) :=
  poke_le (r + 4) 4 headers.length ++ poke_le (r + 8) 8 (r + 160)
    ++ poke_le (r + 152) 8 slide ++ poke_entries 24 8 (r + 160) headers

/-- A 32-bit all-images record at `r` (84 bytes) followed by its entry array
at `r + 84`. -/
def registry32 (r slide : Nat) (headers : List Nat) : List (Nat × Nat) :=
  poke_le (r + 4) 4 headers.length ++ poke_le (r + 8) 4 (r + 84)
    ++ poke_le (r + 80) 4 slide ++ poke_entries 12 4 (r + 84) headers

/-- The answer of `task_info()` for a 64-bit record of 160 bytes at `r`. -/
def dyld_info64 (r : Nat) : task_dyld_info_data_t :=
  { all_image_info_addr := r, all_image_info_size := 160,
    all_image_info_format := TASK_DYLD_ALL_IMAGE_INFO_64 }

/-- The string table used by the examples: offset 1 `_foo`, 6 `foo`,
10 `xfoo`, 15 `__foo`, 21 `bar`; offset 0 is the empty name. -/
def example_strings : List Nat :=
  [0, 95, 102, 111, 111, 0, 102, 111, 111, 0, 120, 102, 111, 111, 0,
   95, 95, 102, 111, 111, 0, 98, 97, 114, 0]

/-- The name `foo`. -/
def name_foo : List Nat := [102, 111, 111]
/-- The name `_foo`. -/
def name__foo : List Nat := [95, 102, 111, 111]

/-- Target of the first examples: a 64-bit record at `0x1000` with slide
`0x5000` listing one 32-bit image at `0x2000` that carries the shared-cache
flag and defines `bar` at `0x1234`. -/
def target_cache_main : Task :=
  { dyld_info := some (dyld_info64 0x1000),
    mem := memory_of 0x1000 0x4000
      (registry64 0x1000 0x5000 [0x2000]
        ++ image32 0x2000 0x80000000 [(21, 0x1234)] example_strings) }

/-- A 64-bit main image at `0x100000000` (no flags) whose symbol `_foo` has
the value `0x2000`; slide 0. -/
def target_low_value : Task :=
  { dyld_info := some (dyld_info64 0x1000),
    mem := memory_of 0x1000 0x100003000
      (registry64 0x1000 0 [0x100000000]
        ++ image64 0x100000000 0 [(0, 0), (1, 0x2000)] example_strings) }

/-- A 32-bit main image at `0x2000` (no flags) defining `_foo` at `0x1f00`;
slide `0x5000`. -/
def target_main32 : Task :=
  { dyld_info := some (dyld_info64 0x1000),
    mem := memory_of 0x1000 0x4000
      (registry64 0x1000 0x5000 [0x2000]
        ++ image32 0x2000 0 [(1, 0x1f00)] example_strings) }

/-- Two 32-bit images: the main image at `0x2000` defines `bar`, the library
at `0x3000` carries the shared-cache flag and defines `_foo` at `0x1f00`;
slide `0x5000`. -/
def target_library : Task :=
  { dyld_info := some (dyld_info64 0x1000),
    mem := memory_of 0x1000 0x5000
      (registry64 0x1000 0x5000 [0x2000, 0x3000]
        ++ image32 0x2000 0 [(21, 0x1234)] example_strings
        ++ image32 0x3000 0x80000000 [(1, 0x1f00)] example_strings) }

/-- A 32-bit image at `0x2000` whose only symbol is `xfoo` (value `0x1500`). -/
def target_xfoo32 : Task :=
  { dyld_info := none,
    mem := memory_of 0x2000 0x3000 (image32 0x2000 0 [(10, 0x1500)] example_strings) }

/-- A 64-bit image at `0x100000000` whose only symbol is `xfoo` (value
`0x100001500`). -/
def target_xfoo64 : Task :=
  { dyld_info := none,
    mem := memory_of 0x100000000 0x100001000
      (image64 0x100000000 0 [(10, 0x100001500)] example_strings) }

/-- A 32-bit image at `0x2000` whose first entry has the value `0x1500` and
the empty name (string index 0) and whose second entry is `_foo` (value
`0x1f00`). -/
def target_empty_name : Task :=
  { dyld_info := none,
    mem := memory_of 0x2000 0x3000
      (image32 0x2000 0 [(0, 0x1500), (1, 0x1f00)] example_strings) }

/-- A 32-bit image at `0x2000` with the entries `_foo` (value 0), `bar`
(value `0x1234`) and `_foo` (value `0x1f00`). -/
def target_zero_value : Task :=
  { dyld_info := none,
    mem := memory_of 0x2000 0x3000
      (image32 0x2000 0 [(1, 0), (21, 0x1234), (1, 0x1f00)] example_strings) }

/-- Two images: at `0x2000` an image whose header announces only the two
segment commands (no `LC_SYMTAB`), at `0x3000` a 32-bit image defining
`_foo` at `0x1f00`; slide 0. -/
def target_no_symtab : Task :=
  { dyld_info := some (dyld_info64 0x1000),
    mem := memory_of 0x1000 0x4000
      (registry64 0x1000 0 [0x2000, 0x3000]
        ++ poke_le (0x2000 + 16) 4 2
        ++ image32 0x2000 0 [(1, 0x1500)] example_strings
        ++ image32 0x3000 0 [(1, 0x1f00)] example_strings) }

/-- A 32-bit image at `0x2000` in an address space that ends at `0x2400`: the
2048-byte window of its first segment name is not readable. -/
def target_short_mapping : Task :=
  { dyld_info := none,
    mem := memory_of 0x2000 0x2400 (image32 0x2000 0 [(1, 0x1f00)] example_strings) }

/-- Two 32-bit images without flags: the main image at `0x2000` defines
`bar`, the library at `0x3000` defines `_foo` at `0x1f00`; slide `0x5000`. -/
def target_plain_library : Task :=
  { dyld_info := some (dyld_info64 0x1000),
    mem := memory_of 0x1000 0x5000
      (registry64 0x1000 0x5000 [0x2000, 0x3000]
        ++ image32 0x2000 0 [(21, 0x1234)] example_strings
        ++ image32 0x3000 0 [(1, 0x1f00)] example_strings) }

/-- A 32-bit image at `0x2000` whose first load command announces the size 0:
the walk reads that command three times. -/
def target_zero_cmdsize : Task :=
  { dyld_info := none,
    mem := memory_of 0x2000 0x3000
      (poke_le (0x2000 + 32) 4 0 ++ image32 0x2000 0 [(1, 0x1f00)] example_strings) }

/-- A 32-bit image placed at `0x100002000`, above the first 4 GiB of the
address space; the memory below `0x100002000` is not mapped. -/
def target_high_image32 : Task :=
  { dyld_info := none,
    mem := memory_of 0x100002000 0x100003000
      (image32 0x100002000 0 [(1, 0x1f00)] example_strings) }

/-- A target whose `task_info()` answer points to a 64-bit record at
`0x9000`, where nothing is mapped. -/
def target_unreadable_registry64 : Task :=
  { dyld_info := some (dyld_info64 0x9000),
    mem := memory_of 0x1000 0x4000 (image32 0x2000 0 [(1, 0x1f00)] example_strings) }

/-- A target whose `task_info()` answer points to a 32-bit record at
`0x9000`, where nothing is mapped. -/
def target_unreadable_registry32 : Task :=
  { dyld_info := some { all_image_info_addr := 0x9000, all_image_info_size := 84,
                        all_image_info_format := TASK_DYLD_ALL_IMAGE_INFO_32 },
    mem := memory_of 0x1000 0x4000 (image32 0x2000 0 [(1, 0x1f00)] example_strings) }

/-- The main image at `0x2000` announces two load commands, the segments
`__TEXT` and `__LINKEDIT` (no `LC_SYMTAB`), and the address space ends at
`0x2400`: the 2048-byte window of the first segment name is not readable.
The registry at `0x1000` lists this image only; slide 0. -/
def target_short_no_symtab : Task :=
  { dyld_info := some (dyld_info64 0x1000),
    mem := memory_of 0x1000 0x2400
      (registry64 0x1000 0 [0x2000]
        ++ poke_le (0x2000 + 16) 4 2
        ++ image32 0x2000 0 [(1, 0x1f00)] example_strings) }

/-! ## Basic facts -/

theorem lookup_of_image_list (t : Task) (symbol_name headers : List Nat) (slide : Nat)
    (hname : symbol_name ≠ []) (hlist : image_list t = some (headers, slide)) :
    lorgnette_lookup t symbol_name = lookup_in_headers t symbol_name headers slide := by
  unfold image_list at hlist
  unfold lorgnette_lookup
  rw [if_neg hname]
  cases h1 : _image_headers_in_task t false 0 0 with
  | abort => simp [h1] at hlist
  | undef => simp [h1] at hlist
  | ret first =>
    simp only [h1] at hlist
    by_cases he : first.err = KERN_SUCCESS
    · simp only [he, if_true] at hlist
      simp only [he, ne_eq, not_true_eq_false, if_false]
      cases h2 : _image_headers_in_task t true first.count first.shared_cache_slide with
      | abort => simp [h2] at hlist
      | undef => simp [h2] at hlist
      | ret second =>
        simp only [h2] at hlist
        by_cases he2 : second.err = KERN_SUCCESS
        · simp only [he2, if_true, Option.some.injEq, Prod.mk.injEq] at hlist
          simp only [he2, ne_eq, not_true_eq_false, if_false]
          rw [hlist.1, hlist.2]
        · simp [he2] at hlist
    · simp [he] at hlist

/-- With a readable header the scanner's result does not depend on the
incoming value of `*imageFromSharedCache`. -/
theorem scan_flag_irrelevant (t : Task) (remote_header : Nat) (symbol_name : List Nat)
    (f g : Bool) (header : mach_header) (hh : image_header t remote_header = some header) :
    _scan_remote_image_for_symbol t remote_header symbol_name f
      = _scan_remote_image_for_symbol t remote_header symbol_name g := by
  unfold image_header at hh
  unfold _scan_remote_image_for_symbol
  cases hr : mach_vm_read_overwrite t remote_header sizeof_mach_header with
  | none => simp [hr] at hh
  | some hb => simp only []

/-- A scan whose header read fails returns 0 and leaves the flag alone. -/
theorem scan_of_unreadable_header (t : Task) (remote_header : Nat) (symbol_name : List Nat)
    (f : Bool) (hpos : remote_header ≠ 0) (hh : image_header t remote_header = none) :
    _scan_remote_image_for_symbol t remote_header symbol_name f = Outcome.ret (0, f) := by
  unfold image_header at hh
  unfold _scan_remote_image_for_symbol
  rw [if_neg hpos]
  cases hr : mach_vm_read_overwrite t remote_header sizeof_mach_header with
  | none => rfl
  | some hb => simp [hr] at hh

/-- The flag a returning scan leaves behind is the header flag of the image
whenever the header is readable. -/
theorem scan_flag_of_header (t : Task) (remote_header : Nat) (symbol_name : List Nat)
    (f c : Bool) (v : Nat) (header : mach_header)
    (hh : image_header t remote_header = some header)
    (hs : _scan_remote_image_for_symbol t remote_header symbol_name f = Outcome.ret (v, c)) :
    c = from_shared_cache header := by
  unfold image_header at hh
  unfold _scan_remote_image_for_symbol at hs
  cases hr : mach_vm_read_overwrite t remote_header sizeof_mach_header with
  | none => simp [hr] at hh
  | some hb =>
    simp only [hr, Option.map_some', Option.some.injEq] at hh
    subst hh
    simp only [hr] at hs
    split at hs
    · cases hs
    · split at hs
      · simp only [Outcome.ret.injEq, Prod.mk.injEq] at hs
        exact hs.2.symm
      · split at hs
        · cases hs
        · cases hs
        · simp only [Outcome.ret.injEq, Prod.mk.injEq] at hs
          exact hs.2.symm
        · split at hs
          · simp only [Outcome.ret.injEq, Prod.mk.injEq] at hs
            exact hs.2.symm
          · split at hs
            · cases hs
            · cases hs
            · simp only [Outcome.ret.injEq, Prod.mk.injEq] at hs
              exact hs.2.symm

/-- A scan that returns a non-zero value has read the header. -/
theorem header_of_scan_nonzero (t : Task) (remote_header : Nat) (symbol_name : List Nat)
    (f c : Bool) (v : Nat) (hv : v ≠ 0)
    (hs : _scan_remote_image_for_symbol t remote_header symbol_name f = Outcome.ret (v, c)) :
    ∃ header, image_header t remote_header = some header := by
  unfold image_header
  unfold _scan_remote_image_for_symbol at hs
  cases hr : mach_vm_read_overwrite t remote_header sizeof_mach_header with
  | some hb => exact ⟨_, rfl⟩
  | none =>
    simp only [hr] at hs
    split at hs
    · cases hs
    · simp only [Outcome.ret.injEq, Prod.mk.injEq] at hs
      exact absurd hs.1.symm hv

/-- A scan that returns was given a non-null header address. -/
theorem scan_ret_nonnull (t : Task) (remote_header : Nat) (symbol_name : List Nat)
    (f : Bool) (r : Nat × Bool)
    (hs : _scan_remote_image_for_symbol t remote_header symbol_name f = Outcome.ret r) :
    remote_header ≠ 0 := by
  intro h0
  unfold _scan_remote_image_for_symbol at hs
  rw [if_pos h0] at hs
  cases hs

/-- A scan returning 0 returns 0 for every incoming flag. -/
theorem scan_zero_any_flag (t : Task) (remote_header : Nat) (symbol_name : List Nat)
    (f g : Bool)
    (hs : _scan_remote_image_for_symbol t remote_header symbol_name false
      = Outcome.ret (0, g)) :
    ∃ g', _scan_remote_image_for_symbol t remote_header symbol_name f
      = Outcome.ret (0, g') := by
  cases hh : image_header t remote_header with
  | some header =>
    exact ⟨g, by rw [scan_flag_irrelevant t remote_header symbol_name f false header hh, hs]⟩
  | none =>
    exact ⟨f, scan_of_unreadable_header t remote_header symbol_name f
      (scan_ret_nonnull t remote_header symbol_name false _ hs) hh⟩

/-- A scan returning a non-zero value returns the same for every incoming
flag. -/
theorem scan_nonzero_any_flag (t : Task) (remote_header : Nat) (symbol_name : List Nat)
    (f c : Bool) (v : Nat) (hv : v ≠ 0)
    (hs : _scan_remote_image_for_symbol t remote_header symbol_name false
      = Outcome.ret (v, c)) :
    _scan_remote_image_for_symbol t remote_header symbol_name f = Outcome.ret (v, c) := by
  obtain ⟨header, hh⟩ := header_of_scan_nonzero t remote_header symbol_name false c v hv hs
  rw [scan_flag_irrelevant t remote_header symbol_name f false header hh, hs]

/-- The image loop steps over an image whose scan returns 0. -/
theorem lookup_loop_skip (t : Task) (symbol_name headers : List Nat) (i image : Nat)
    (rest : List Nat) (result : Nat) (f g : Bool)
    (hs : _scan_remote_image_for_symbol t image symbol_name f = Outcome.ret (0, g)) :
    lookup_loop t symbol_name headers i (image :: rest) result f
      = lookup_loop t symbol_name headers (i + 1) rest 0 g := by
  rw [lookup_loop, hs]
  simp

/-- The image loop steps over a whole prefix of images whose scans return 0. -/
theorem lookup_loop_skip_prefix (t : Task) (symbol_name headers : List Nat) :
    ∀ (pre : List Nat) (i : Nat) (rest : List Nat) (result : Nat) (f : Bool),
      (∀ x ∈ pre, ∃ g, _scan_remote_image_for_symbol t x symbol_name false
        = Outcome.ret (0, g)) →
      ∃ r g, lookup_loop t symbol_name headers i (pre ++ rest) result f
        = lookup_loop t symbol_name headers (i + pre.length) rest r g
        ∧ (r = 0 ∨ r = result) := by
  intro pre
  induction pre with
  | nil =>
    intro i rest result f _
    exact ⟨result, f, by simp, Or.inr rfl⟩
  | cons x pre ih =>
    intro i rest result f hpre
    obtain ⟨g0, hg0⟩ := hpre x (by simp)
    obtain ⟨g1, hg1⟩ := scan_zero_any_flag t x symbol_name f g0 hg0
    obtain ⟨r, g, hloop, hr⟩ := ih (i + 1) rest 0 g1
      (fun y hy => hpre y (List.mem_cons_of_mem x hy))
    refine ⟨r, g, ?_, ?_⟩
    · rw [List.cons_append, lookup_loop_skip t symbol_name headers i x (pre ++ rest)
        result f g1 hg1, hloop]
      simp only [List.length_cons]
      congr 1
      omega
    · rcases hr with h | h
      · exact Or.inl h
      · exact Or.inl h

/-- The image loop stops at the first image whose scan returns a non-zero
value. -/
theorem lookup_loop_first_match (t : Task) (symbol_name headers pre : List Nat)
    (image : Nat) (post : List Nat) (v : Nat) (c : Bool)
    (hpre : ∀ x ∈ pre, ∃ g, _scan_remote_image_for_symbol t x symbol_name false
      = Outcome.ret (0, g))
    (hm : _scan_remote_image_for_symbol t image symbol_name false = Outcome.ret (v, c))
    (hv : 0 < v) :
    lookup_loop t symbol_name headers 0 (pre ++ image :: post) 0 false
      = Outcome.ret
          (if pre = [] then rebase_main v (headers.getD 0 0) else v, c) := by
  obtain ⟨r, g, hloop, _⟩ :=
    lookup_loop_skip_prefix t symbol_name headers pre 0 (image :: post) 0 false hpre
  rw [hloop, lookup_loop,
    scan_nonzero_any_flag t image symbol_name g c v (Nat.pos_iff_ne_zero.mp hv) hm]
  simp only [gt_iff_lt, hv, if_true, Nat.zero_add]
  cases pre with
  | nil => simp
  | cons x xs => simp

/-- The image loop finds nothing when every scan returns 0. -/
theorem lookup_loop_no_match (t : Task) (symbol_name headers : List Nat) :
    ∀ (images : List Nat) (i : Nat) (f : Bool),
      (∀ x ∈ images, ∃ g, _scan_remote_image_for_symbol t x symbol_name false
        = Outcome.ret (0, g)) →
      ∃ g, lookup_loop t symbol_name headers i images 0 f = Outcome.ret (0, g) := by
  intro images i f himages
  obtain ⟨r, g, hloop, hr⟩ :=
    lookup_loop_skip_prefix t symbol_name headers images i [] 0 f himages
  rw [List.append_nil] at hloop
  refine ⟨g, ?_⟩
  rw [hloop, lookup_loop]
  rcases hr with h | h <;> rw [h]

/-- The main-image rebase in closed form. -/
theorem rebase_main_eq (v header0 : Nat) :
    rebase_main v header0
      = (v + 2 ^ 64 - (if v < 0x100000000 then 0x1000 else 0x100000000) + header0)
          % 2 ^ 64 := by
  unfold rebase_main kx86_64DefaultBaseAddress ki386DefaultBaseAddress
  norm_num
  split <;> omega

/-! ## Value ranges -/

theorem fetch_lt (mem : Nat → Option (Fin 256)) (addr size : Nat) :
    ∀ b ∈ fetch mem addr size, b < 256 := by
  intro b hb
  unfold fetch at hb
  obtain ⟨k, _, hk⟩ := List.mem_map.mp hb
  rw [← hk]
  split
  · omega
  · rename_i x _
    exact x.isLt

theorem read_lt (t : Task) (addr size : Nat) (bs : List Nat)
    (h : mach_vm_read_overwrite t addr size = some bs) : ∀ b ∈ bs, b < 256 := by
  unfold mach_vm_read_overwrite at h
  split at h
  · simp only [Option.some.injEq] at h
    rw [← h]
    exact fetch_lt t.mem addr size
  · cases h

theorem le_value_lt : ∀ (bs : List Nat), (∀ b ∈ bs, b < 256) →
    le_value bs < 256 ^ bs.length := by
  intro bs
  induction bs with
  | nil => intro _; simp [le_value]
  | cons b bs ih =>
    intro h
    have hb : b < 256 := h b (by simp)
    have hrest := ih (fun x hx => h x (List.mem_cons_of_mem b hx))
    simp only [le_value, List.length_cons, pow_succ]
    omega

theorem field_lt (bs : List Nat) (off width : Nat) (h : ∀ b ∈ bs, b < 256) :
    field bs off width < 256 ^ width := by
  unfold field
  have h1 : ∀ b ∈ (bs.drop off).take width, b < 256 := fun b hb =>
    h b (List.mem_of_mem_drop (List.mem_of_mem_take hb))
  have h2 := le_value_lt _ h1
  have h3 : ((bs.drop off).take width).length ≤ width := by
    rw [List.length_take]
    exact Nat.min_le_left _ _
  exact lt_of_lt_of_le h2 (Nat.pow_le_pow_right (by norm_num) h3)

/-- The 32-bit symbol loop only returns values below `2^32`. -/
theorem scan_symbols_32_lt (t : Task) (symbol_name : List Nat) (strings : Nat) :
    ∀ (n sym_addr v : Nat),
      scan_symbols_32 t symbol_name strings n sym_addr = Outcome.ret v → v < 2 ^ 32 := by
  intro n
  induction n with
  | zero =>
    intro sym_addr v h
    simp only [scan_symbols_32, Outcome.ret.injEq] at h
    omega
  | succ n ih =>
    intro sym_addr v h
    rw [scan_symbols_32] at h
    cases hr : mach_vm_read_overwrite t sym_addr sizeof_nlist with
    | none =>
      simp only [hr, Outcome.ret.injEq] at h
      omega
    | some sb =>
      simp only [hr] at h
      split at h
      · exact ih _ v h
      · split at h
        · cases h
        · cases h
        · split at h
          · cases h
          · cases h
          · simp only [Outcome.ret.injEq] at h
            rw [← h]
            have := field_lt sb 8 4 (read_lt t sym_addr sizeof_nlist sb hr)
            simpa [nlist.decode] using this
          · exact ih _ v h

theorem locate_symbol_table_bitness (t : Task) (remote_header : Nat) (b : Bool)
    (symtab_addr linkedit_addr text_addr : Nat) (st : symbol_table)
    (h : locate_symbol_table t remote_header b symtab_addr linkedit_addr text_addr
      = some st) : st.sixtyfourbit = b := by
  unfold locate_symbol_table at h
  split at h
  · cases h
  · split at h
    · cases h
    · split at h
      · split at h
        · cases h
        · split at h
          · cases h
          · simp only [Option.some.injEq] at h
            rw [← h]
            simp_all
      · split at h
        · cases h
        · split at h
          · cases h
          · simp only [Option.some.injEq] at h
            rw [← h]
            simp_all

/-- What a returning scan of an image with a readable header and valid magic
amounts to: either the symbol loop was not reached and the value is 0, or it
is the value of the symbol loop on the located table. -/
theorem scan_ret_cases (t : Task) (remote_header : Nat) (symbol_name : List Nat)
    (f c : Bool) (v : Nat)
    (hs : _scan_remote_image_for_symbol t remote_header symbol_name f = Outcome.ret (v, c)) :
    v = 0 ∨ ∃ st, image_symbol_table t remote_header = some st
      ∧ scan_symbols t symbol_name st = Outcome.ret v := by
  unfold _scan_remote_image_for_symbol at hs
  unfold image_symbol_table image_header
  split at hs
  · cases hs
  · rename_i hpos
    rw [if_neg hpos]
    cases hr : mach_vm_read_overwrite t remote_header sizeof_mach_header with
    | none =>
      simp only [hr, Outcome.ret.injEq, Prod.mk.injEq] at hs
      exact Or.inl hs.1.symm
    | some hb =>
      simp only [hr, Option.map_some'] at hs ⊢
      split at hs
      · simp only [Outcome.ret.injEq, Prod.mk.injEq] at hs
        exact Or.inl hs.1.symm
      · rename_i hmagic
        rw [if_neg hmagic]
        split at hs
        · cases hs
        · cases hs
        · simp only [Outcome.ret.injEq, Prod.mk.injEq] at hs
          exact Or.inl hs.1.symm
        · rename_i s l x hw
          simp only [hw]
          split at hs
          · simp only [Outcome.ret.injEq, Prod.mk.injEq] at hs
            exact Or.inl hs.1.symm
          · rename_i st hl
            split at hs
            · cases hs
            · cases hs
            · rename_i w hw2
              simp only [Outcome.ret.injEq, Prod.mk.injEq] at hs
              refine Or.inr ⟨st, hl, ?_⟩
              rw [hw2, hs.1]

theorem image_symbol_table_bitness (t : Task) (remote_header : Nat) (header : mach_header)
    (st : symbol_table) (hh : image_header t remote_header = some header)
    (hst : image_symbol_table t remote_header = some st) :
    st.sixtyfourbit = decide (header.magic = MH_MAGIC_64) := by
  unfold image_symbol_table at hst
  split at hst
  · cases hst
  · simp only [hh] at hst
    split at hst
    · cases hst
    · split at hst
      · exact locate_symbol_table_bitness t remote_header _ _ _ _ st hst
      · cases hst

/-- The scanner only returns values below `2^32` for a 32-bit image. -/
theorem scan_value_lt_of_magic (t : Task) (remote_header : Nat) (symbol_name : List Nat)
    (f c : Bool) (v : Nat) (header : mach_header)
    (hh : image_header t remote_header = some header) (hmagic : header.magic = MH_MAGIC)
    (hs : _scan_remote_image_for_symbol t remote_header symbol_name f = Outcome.ret (v, c)) :
    v < 0x100000000 := by
  rcases scan_ret_cases t remote_header symbol_name f c v hs with h0 | ⟨st, hst, hloop⟩
  · omega
  · have hb := image_symbol_table_bitness t remote_header header st hh hst
    have hb' : st.sixtyfourbit = false := by
      rw [hb, hmagic]
      decide
    unfold scan_symbols at hloop
    rw [hb'] at hloop
    have := scan_symbols_32_lt t symbol_name st.strings st.nsyms st.sym_addr v
      (by simpa using hloop)
    omega

/-- The result of `lorgnette_lookup` when the first image whose scan returns a
non-zero value `v` is preceded by the images `pre`. -/
theorem lookup_first_match (t : Task) (symbol_name pre : List Nat) (image : Nat)
    (post : List Nat) (slide v : Nat) (c : Bool)
    (hname : symbol_name ≠ [])
    (hlist : image_list t = some (pre ++ image :: post, slide))
    (hpre : ∀ x ∈ pre, ∃ g, _scan_remote_image_for_symbol t x symbol_name false
      = Outcome.ret (0, g))
    (hm : _scan_remote_image_for_symbol t image symbol_name false = Outcome.ret (v, c))
    (hv : 0 < v) :
    lorgnette_lookup t symbol_name
      = Outcome.ret
          (if c then
            ((if pre = [] then
                (v + 2 ^ 64 - (if v < 0x100000000 then 0x1000 else 0x100000000)
                  + (pre ++ image :: post).getD 0 0) % 2 ^ 64
              else v) + slide) % 2 ^ 64
           else
            (if pre = [] then
              (v + 2 ^ 64 - (if v < 0x100000000 then 0x1000 else 0x100000000)
                + (pre ++ image :: post).getD 0 0) % 2 ^ 64
             else v)) := by
  rw [lookup_of_image_list t symbol_name _ slide hname hlist]
  unfold lookup_in_headers
  rw [lookup_loop_first_match t symbol_name _ pre image post v c hpre hm hv]
  simp only [rebase_main_eq]
  cases c <;> simp

/-- The 64-bit symbol loop only returns values below `2^64`. -/
theorem scan_symbols_64_lt (t : Task) (symbol_name : List Nat) (strings : Nat) :
    ∀ (n sym_addr v : Nat),
      scan_symbols_64 t symbol_name strings n sym_addr = Outcome.ret v → v < 2 ^ 64 := by
  intro n
  induction n with
  | zero =>
    intro sym_addr v h
    simp only [scan_symbols_64, Outcome.ret.injEq] at h
    omega
  | succ n ih =>
    intro sym_addr v h
    rw [scan_symbols_64] at h
    cases hr : mach_vm_read_overwrite t sym_addr sizeof_nlist_64 with
    | none =>
      simp only [hr, Outcome.ret.injEq] at h
      omega
    | some sb =>
      simp only [hr] at h
      split at h
      · exact ih _ v h
      · split at h
        · cases h
        · cases h
        · split at h
          · cases h
          · cases h
          · simp only [Outcome.ret.injEq] at h
            rw [← h]
            have := field_lt sb 8 8 (read_lt t sym_addr sizeof_nlist_64 sb hr)
            simpa [nlist.decode64] using this
          · exact ih _ v h

/-- The scanner only returns values that fit `mach_vm_address_t`. -/
theorem scan_value_lt (t : Task) (remote_header : Nat) (symbol_name : List Nat)
    (f c : Bool) (v : Nat)
    (hs : _scan_remote_image_for_symbol t remote_header symbol_name f = Outcome.ret (v, c)) :
    v < 2 ^ 64 := by
  rcases scan_ret_cases t remote_header symbol_name f c v hs with h0 | ⟨st, _, hloop⟩
  · omega
  · unfold scan_symbols at hloop
    cases hb : st.sixtyfourbit with
    | true =>
      rw [hb] at hloop
      exact scan_symbols_64_lt t symbol_name st.strings st.nsyms st.sym_addr v
        (by simpa using hloop)
    | false =>
      rw [hb] at hloop
      have := scan_symbols_32_lt t symbol_name st.strings st.nsyms st.sym_addr v
        (by simpa using hloop)
      omega

/-! ## The symbol loops -/

theorem name_matches_ne_abort (symbol_name symname : List Nat) :
    name_matches symbol_name symname ≠ Outcome.abort := by
  unfold name_matches
  split
  · simp
  · split <;> simp

theorem scan_symbols_64_eq_from (t : Task) (symbol_name : List Nat) (st : symbol_table)
    (hb : st.sixtyfourbit = true) :
    ∀ (n i : Nat), scan_symbols_64 t symbol_name st.strings n (entry_addr st i)
      = scan_symbols_from t symbol_name st n i := by
  intro n
  induction n with
  | zero => intro i; rfl
  | succ n ih =>
    intro i
    have hnext : (entry_addr st i + sizeof_nlist_64) % 2 ^ 64 = entry_addr st (i + 1) := by
      simp only [entry_addr, entry_size, address_modulus, hb, if_true, sizeof_nlist_64]
      omega
    rw [scan_symbols_64, scan_symbols_from]
    simp only [symbol_entry, entry_size, hb, if_true, symbol_name_addr, address_modulus]
    cases hr : mach_vm_read_overwrite t (entry_addr st i) sizeof_nlist_64 with
    | none => rfl
    | some sb =>
      simp only [Option.map_some', hnext, ih]

theorem scan_symbols_32_eq_from (t : Task) (symbol_name : List Nat) (st : symbol_table)
    (hb : st.sixtyfourbit = false) :
    ∀ (n i : Nat), scan_symbols_32 t symbol_name st.strings n (entry_addr st i)
      = scan_symbols_from t symbol_name st n i := by
  intro n
  induction n with
  | zero => intro i; rfl
  | succ n ih =>
    intro i
    have hnext : (entry_addr st i + sizeof_nlist) % 2 ^ 32 = entry_addr st (i + 1) := by
      simp only [entry_addr, entry_size, address_modulus, hb, Bool.false_eq_true, if_false,
        sizeof_nlist]
      omega
    rw [scan_symbols_32, scan_symbols_from]
    simp only [symbol_entry, entry_size, hb, Bool.false_eq_true, if_false, symbol_name_addr,
      address_modulus]
    cases hr : mach_vm_read_overwrite t (entry_addr st i) sizeof_nlist with
    | none => rfl
    | some sb =>
      simp only [Option.map_some', hnext, ih]

theorem locate_symbol_table_lt (t : Task) (remote_header : Nat) (b : Bool)
    (symtab_addr linkedit_addr text_addr : Nat) (st : symbol_table)
    (h : locate_symbol_table t remote_header b symtab_addr linkedit_addr text_addr
      = some st) : st.sym_addr < address_modulus st := by
  unfold locate_symbol_table at h
  unfold address_modulus
  split at h
  · cases h
  · split at h
    · cases h
    · split at h
      · split at h
        · cases h
        · split at h
          · cases h
          · simp only [Option.some.injEq] at h
            rw [← h]
            exact Nat.mod_lt _ (by norm_num)
      · split at h
        · cases h
        · split at h
          · cases h
          · simp only [Option.some.injEq] at h
            rw [← h]
            exact Nat.mod_lt _ (by norm_num)

theorem image_symbol_table_lt (t : Task) (remote_header : Nat) (st : symbol_table)
    (hst : image_symbol_table t remote_header = some st) :
    st.sym_addr < address_modulus st := by
  unfold image_symbol_table at hst
  split at hst
  · cases hst
  · split at hst
    · cases hst
    · split at hst
      · cases hst
      · simp only [] at hst
        split at hst
        · exact locate_symbol_table_lt t remote_header _ _ _ _ st hst
        · cases hst

/-- On a table located by the scanner the symbol loop is the index loop
started at entry 0. -/
theorem scan_symbols_eq_from (t : Task) (symbol_name : List Nat) (st : symbol_table)
    (hlt : st.sym_addr < address_modulus st) :
    scan_symbols t symbol_name st = scan_symbols_from t symbol_name st st.nsyms 0 := by
  have h0 : entry_addr st 0 = st.sym_addr := by
    simp only [entry_addr, Nat.mul_zero, Nat.add_zero]
    exact Nat.mod_eq_of_lt hlt
  unfold scan_symbols
  cases hb : st.sixtyfourbit with
  | true =>
    simp only [if_true]
    rw [← scan_symbols_64_eq_from t symbol_name st hb st.nsyms 0, h0]
  | false =>
    simp only [Bool.false_eq_true, if_false]
    rw [← scan_symbols_32_eq_from t symbol_name st hb st.nsyms 0, h0]

/-- On a non-empty stored name the name test is defined: it accepts the name
itself and the name without its first character. -/
theorem name_matches_cons (symbol_name : List Nat) (c : Nat) (rest : List Nat) :
    name_matches symbol_name (c :: rest)
      = Outcome.ret (decide (symbol_name = c :: rest ∨ symbol_name = rest)) := by
  unfold name_matches
  by_cases h : symbol_name = c :: rest
  · simp [h]
  · simp [h]

theorem scan_symbols_from_sound (t : Task) (name : List Nat) (st : symbol_table) :
    ∀ (n i v : Nat), scan_symbols_from t name st n i = Outcome.ret v → v ≠ 0 →
      ∃ j sym symname, i ≤ j ∧ j < i + n ∧ symbol_entry t st j = some sym
        ∧ sym.n_value = v
        ∧ _copyin_string t (symbol_name_addr st sym) = Outcome.ret symname
        ∧ name_matches name symname = Outcome.ret true := by
  intro n
  induction n with
  | zero =>
    intro i v h hv
    simp only [scan_symbols_from, Outcome.ret.injEq] at h
    exact absurd h.symm hv
  | succ n ih =>
    intro i v h hv
    rw [scan_symbols_from] at h
    cases he : symbol_entry t st i with
    | none =>
      simp only [he, Outcome.ret.injEq] at h
      exact absurd h.symm hv
    | some sym =>
      simp only [he] at h
      have hrec : scan_symbols_from t name st n (i + 1) = Outcome.ret v →
          ∃ j sym symname, i ≤ j ∧ j < i + (n + 1) ∧ symbol_entry t st j = some sym
            ∧ sym.n_value = v
            ∧ _copyin_string t (symbol_name_addr st sym) = Outcome.ret symname
            ∧ name_matches name symname = Outcome.ret true := by
        intro h'
        obtain ⟨j, sym', symname, h1, h2, h3⟩ := ih (i + 1) v h' hv
        exact ⟨j, sym', symname, by omega, by omega, h3⟩
      by_cases hz : sym.n_value = 0
      · simp only [hz, if_true] at h
        exact hrec h
      · simp only [hz, if_false] at h
        cases hc : _copyin_string t (symbol_name_addr st sym) with
        | abort => simp [hc] at h
        | undef => simp [hc] at h
        | ret symname =>
          simp only [hc] at h
          cases hm : name_matches name symname with
          | abort => simp [hm] at h
          | undef => simp [hm] at h
          | ret b =>
            cases b with
            | true =>
              simp only [hm, Outcome.ret.injEq] at h
              exact ⟨i, sym, symname, le_refl i, by omega, he, h, hc, hm⟩
            | false =>
              simp only [hm] at h
              exact hrec h

/-- First symbol wins, provided every entry can be read and every non-zero
entry has a readable, non-empty stored name. -/
theorem scan_symbols_from_first (t : Task) (name : List Nat) (st : symbol_table) :
    ∀ (n i : Nat),
      (∀ j, i ≤ j → j < i + n → ∃ sym, symbol_entry t st j = some sym
        ∧ (sym.n_value ≠ 0 → ∃ symname,
            _copyin_string t (symbol_name_addr st sym) = Outcome.ret symname
              ∧ symname ≠ [])) →
      (∃ j sym, i ≤ j ∧ j < i + n ∧ symbol_entry t st j = some sym
          ∧ entry_matches t name st j
          ∧ (∀ k, i ≤ k → k < j → ¬ entry_matches t name st k)
          ∧ scan_symbols_from t name st n i = Outcome.ret sym.n_value)
        ∨ ((∀ j, i ≤ j → j < i + n → ¬ entry_matches t name st j)
          ∧ scan_symbols_from t name st n i = Outcome.ret 0) := by
  intro n
  induction n with
  | zero =>
    intro i _
    exact Or.inr ⟨fun j h1 h2 => by omega, rfl⟩
  | succ n ih =>
    intro i hall
    obtain ⟨sym, he, hname⟩ := hall i (le_refl i) (by omega)
    have hrest := ih (i + 1) (fun j h1 h2 => hall j (by omega) (by omega))
    -- what happens when entry `i` is passed over
    have hskip : ¬ entry_matches t name st i →
        scan_symbols_from t name st (n + 1) i = scan_symbols_from t name st n (i + 1) →
        (∃ j sym, i ≤ j ∧ j < i + (n + 1) ∧ symbol_entry t st j = some sym
          ∧ entry_matches t name st j
          ∧ (∀ k, i ≤ k → k < j → ¬ entry_matches t name st k)
          ∧ scan_symbols_from t name st (n + 1) i = Outcome.ret sym.n_value)
        ∨ ((∀ j, i ≤ j → j < i + (n + 1) → ¬ entry_matches t name st j)
          ∧ scan_symbols_from t name st (n + 1) i = Outcome.ret 0) := by
      intro hno heq
      rcases hrest with ⟨j, sym', h1, h2, h3, h4, h5, h6⟩ | ⟨h1, h2⟩
      · refine Or.inl ⟨j, sym', by omega, by omega, h3, h4, ?_, by rw [heq, h6]⟩
        intro k hk1 hk2
        by_cases hki : k = i
        · rw [hki]
          exact hno
        · exact h5 k (by omega) hk2
      · refine Or.inr ⟨?_, by rw [heq, h2]⟩
        intro j hj1 hj2
        by_cases hji : j = i
        · rw [hji]
          exact hno
        · exact h1 j (by omega) (by omega)
    by_cases hz : sym.n_value = 0
    · apply hskip
      · rintro ⟨sym', symname, h1, h2, _⟩
        rw [he, Option.some.injEq] at h1
        rw [← h1] at h2
        exact h2 hz
      · rw [scan_symbols_from]
        simp only [he, hz, if_true]
    · obtain ⟨symname, hc, hne⟩ := hname hz
      obtain ⟨c, rest, hcons⟩ := List.exists_cons_of_ne_nil hne
      subst hcons
      have hm := name_matches_cons name c rest
      by_cases hb : name = c :: rest ∨ name = rest
      · simp only [hb, decide_True] at hm
        refine Or.inl ⟨i, sym, le_refl i, by omega, he, ⟨sym, c :: rest, he, hz, hc, hm⟩,
          fun k h1 h2 => by omega, ?_⟩
        rw [scan_symbols_from]
        simp only [he, hz, if_false, hc, hm]
      · simp only [hb, decide_False] at hm
        apply hskip
        · rintro ⟨sym', symname', h1, _, h3, h4⟩
          rw [he, Option.some.injEq] at h1
          rw [← h1, hc, Outcome.ret.injEq] at h3
          rw [← h3, hm] at h4
          simp at h4
        · rw [scan_symbols_from]
          simp only [he, hz, if_false, hc, hm]

/-! ## The scanner in terms of the located table -/

/-- When the scanner reaches its symbol loop, its result is the result of the
loop together with the header flag. -/
theorem scan_of_symbol_table (t : Task) (remote_header : Nat) (st : symbol_table)
    (hst : image_symbol_table t remote_header = some st) :
    ∃ header, image_header t remote_header = some header
      ∧ ∀ (name : List Nat) (f : Bool),
          _scan_remote_image_for_symbol t remote_header name f
            = match scan_symbols t name st with
              | Outcome.ret v => Outcome.ret (v, from_shared_cache header)
              | Outcome.abort => Outcome.abort
              | Outcome.undef => Outcome.undef := by
  unfold image_symbol_table at hst
  by_cases hpos : remote_header = 0
  · simp [hpos] at hst
  · rw [if_neg hpos] at hst
    cases hh : image_header t remote_header with
    | none => simp [hh] at hst
    | some header =>
      refine ⟨header, rfl, ?_⟩
      intro name f
      simp only [hh] at hst
      unfold _scan_remote_image_for_symbol
      rw [if_neg hpos]
      unfold image_header at hh
      cases hr : mach_vm_read_overwrite t remote_header sizeof_mach_header with
      | none => simp [hr] at hh
      | some hb =>
        simp only [hr, Option.map_some', Option.some.injEq] at hh
        subst hh
        simp only []
        by_cases hmagic : (mach_header.decode hb).magic ≠ MH_MAGIC
            ∧ (mach_header.decode hb).magic ≠ MH_MAGIC_64
        · simp [hmagic] at hst
        · rw [if_neg hmagic] at hst ⊢
          cases hw : walk_load_commands t (mach_header.decode hb).ncmds
              (first_command_addr remote_header
                (decide ((mach_header.decode hb).magic = MH_MAGIC_64))) 0 0 0 with
          | abort => simp [hw] at hst
          | undef => simp [hw] at hst
          | ret r =>
            cases r with
            | none => simp [hw] at hst
            | some addrs =>
              obtain ⟨s, l, x⟩ := addrs
              simp only [hw] at hst ⊢
              rw [hst]
              cases hsc : scan_symbols t name st <;> simp [hsc]

theorem read_of_image_header (t : Task) (remote_header : Nat) (header : mach_header)
    (hh : image_header t remote_header = some header) :
    ∃ hb, mach_vm_read_overwrite t remote_header sizeof_mach_header = some hb
      ∧ mach_header.decode hb = header := by
  unfold image_header at hh
  cases hr : mach_vm_read_overwrite t remote_header sizeof_mach_header with
  | none => simp [hr] at hh
  | some hb =>
    simp only [hr, Option.map_some', Option.some.injEq] at hh
    exact ⟨hb, rfl, hh⟩

/-- An image with an unsupported magic is skipped. -/
theorem scan_of_bad_magic (t : Task) (remote_header : Nat) (name : List Nat) (f : Bool)
    (header : mach_header) (hpos : remote_header ≠ 0)
    (hh : image_header t remote_header = some header)
    (hmagic : header.magic ≠ MH_MAGIC ∧ header.magic ≠ MH_MAGIC_64) :
    _scan_remote_image_for_symbol t remote_header name f
      = Outcome.ret (0, from_shared_cache header) := by
  obtain ⟨hb, hr, hd⟩ := read_of_image_header t remote_header header hh
  unfold _scan_remote_image_for_symbol
  rw [if_neg hpos]
  simp only [hr, hd]
  rw [if_pos hmagic]

/-- The scanner after a load-command walk stopped by a failed read. -/
theorem scan_of_walk_failed (t : Task) (remote_header : Nat) (name : List Nat) (f : Bool)
    (header : mach_header) (hpos : remote_header ≠ 0)
    (hh : image_header t remote_header = some header)
    (hmagic : ¬ (header.magic ≠ MH_MAGIC ∧ header.magic ≠ MH_MAGIC_64))
    (hw : walk_load_commands t header.ncmds
      (first_command_addr remote_header (decide (header.magic = MH_MAGIC_64))) 0 0 0
        = Outcome.ret none) :
    _scan_remote_image_for_symbol t remote_header name f
      = Outcome.ret (0, from_shared_cache header) := by
  obtain ⟨hb, hr, hd⟩ := read_of_image_header t remote_header header hh
  unfold _scan_remote_image_for_symbol
  rw [if_neg hpos]
  simp only [hr, hd]
  rw [if_neg hmagic, hw]

/-- The scanner after a load-command walk stopped by an assertion. -/
theorem scan_of_walk_abort (t : Task) (remote_header : Nat) (name : List Nat) (f : Bool)
    (header : mach_header) (hpos : remote_header ≠ 0)
    (hh : image_header t remote_header = some header)
    (hmagic : ¬ (header.magic ≠ MH_MAGIC ∧ header.magic ≠ MH_MAGIC_64))
    (hw : walk_load_commands t header.ncmds
      (first_command_addr remote_header (decide (header.magic = MH_MAGIC_64))) 0 0 0
        = Outcome.abort) :
    _scan_remote_image_for_symbol t remote_header name f = Outcome.abort := by
  obtain ⟨hb, hr, hd⟩ := read_of_image_header t remote_header header hh
  unfold _scan_remote_image_for_symbol
  rw [if_neg hpos]
  simp only [hr, hd]
  rw [if_neg hmagic, hw]

/-- The scanner after a completed load-command walk. -/
theorem scan_of_walk (t : Task) (remote_header : Nat) (name : List Nat) (f : Bool)
    (header : mach_header) (symtab_addr linkedit_addr text_addr : Nat)
    (hpos : remote_header ≠ 0)
    (hh : image_header t remote_header = some header)
    (hmagic : ¬ (header.magic ≠ MH_MAGIC ∧ header.magic ≠ MH_MAGIC_64))
    (hw : walk_load_commands t header.ncmds
      (first_command_addr remote_header (decide (header.magic = MH_MAGIC_64))) 0 0 0
        = Outcome.ret (some (symtab_addr, linkedit_addr, text_addr))) :
    _scan_remote_image_for_symbol t remote_header name f
      = match locate_symbol_table t remote_header (decide (header.magic = MH_MAGIC_64))
            symtab_addr linkedit_addr text_addr with
        | none => Outcome.ret (0, from_shared_cache header)
        | some st =>
          match scan_symbols t name st with
          | Outcome.abort => Outcome.abort
          | Outcome.undef => Outcome.undef
          | Outcome.ret v => Outcome.ret (v, from_shared_cache header) := by
  obtain ⟨hb, hr, hd⟩ := read_of_image_header t remote_header header hh
  unfold _scan_remote_image_for_symbol
  rw [if_neg hpos]
  simp only [hr, hd]
  rw [if_neg hmagic, hw]

/-- The located table after a completed load-command walk. -/
theorem image_symbol_table_of_walk (t : Task) (remote_header : Nat)
    (header : mach_header) (symtab_addr linkedit_addr text_addr : Nat)
    (hpos : remote_header ≠ 0)
    (hh : image_header t remote_header = some header)
    (hmagic : ¬ (header.magic ≠ MH_MAGIC ∧ header.magic ≠ MH_MAGIC_64))
    (hw : walk_load_commands t header.ncmds
      (first_command_addr remote_header (decide (header.magic = MH_MAGIC_64))) 0 0 0
        = Outcome.ret (some (symtab_addr, linkedit_addr, text_addr))) :
    image_symbol_table t remote_header
      = locate_symbol_table t remote_header (decide (header.magic = MH_MAGIC_64))
          symtab_addr linkedit_addr text_addr := by
  unfold image_symbol_table
  rw [if_neg hpos]
  simp only [hh]
  rw [if_neg hmagic, hw]

/-- Without one of the three recorded addresses no symbol table is
located. -/
theorem locate_of_missing (t : Task) (remote_header : Nat) (b : Bool)
    (symtab_addr linkedit_addr text_addr : Nat)
    (h : symtab_addr = 0 ∨ linkedit_addr = 0 ∨ text_addr = 0) :
    locate_symbol_table t remote_header b symtab_addr linkedit_addr text_addr = none := by
  unfold locate_symbol_table
  rw [if_pos h]

/-- A failed read of the symtab command or of a segment command leaves no
symbol table. -/
theorem locate_of_failed_read (t : Task) (remote_header : Nat) (b : Bool)
    (symtab_addr linkedit_addr text_addr : Nat)
    (h : mach_vm_read_overwrite t symtab_addr sizeof_symtab_command = none
      ∨ mach_vm_read_overwrite t linkedit_addr
          (if b then sizeof_segment_command_64 else sizeof_segment_command) = none
      ∨ mach_vm_read_overwrite t text_addr
          (if b then sizeof_segment_command_64 else sizeof_segment_command) = none) :
    locate_symbol_table t remote_header b symtab_addr linkedit_addr text_addr = none := by
  unfold locate_symbol_table
  split
  · rfl
  · cases b with
    | true =>
      simp only [if_true] at h ⊢
      rcases h with h | h | h
      · simp only [h]
      · cases hs : mach_vm_read_overwrite t symtab_addr sizeof_symtab_command with
        | none => rfl
        | some stb => simp only [h]
      · cases hs : mach_vm_read_overwrite t symtab_addr sizeof_symtab_command with
        | none => rfl
        | some stb =>
          cases hl : mach_vm_read_overwrite t linkedit_addr sizeof_segment_command_64 with
          | none => rfl
          | some lb => simp only [h]
    | false =>
      simp only [Bool.false_eq_true, if_false] at h ⊢
      rcases h with h | h | h
      · simp only [h]
      · cases hs : mach_vm_read_overwrite t symtab_addr sizeof_symtab_command with
        | none => rfl
        | some stb => simp only [h]
      · cases hs : mach_vm_read_overwrite t symtab_addr sizeof_symtab_command with
        | none => rfl
        | some stb =>
          cases hl : mach_vm_read_overwrite t linkedit_addr sizeof_segment_command with
          | none => rfl
          | some lb => simp only [h]

/-- An unreadable string window stops the process in `_copyin_string`. -/
theorem copyin_string_of_failed_read (t : Task) (pointer : Nat)
    (h : mach_vm_read_overwrite t pointer kRemoteStringBufferSize = none) :
    _copyin_string t pointer = Outcome.abort := by
  unfold _copyin_string
  split
  · rfl
  · rw [h]

/-- First symbol wins within an image, provided every entry of the located
table can be read and every non-zero entry has a readable, non-empty stored
name: the scanner returns the value of the lowest-index entry passing the
name test, or 0 when there is none. -/
theorem scan_first_symbol_of_nonempty_names (t : Task) (remote_header : Nat)
    (name : List Nat) (f : Bool) (st : symbol_table)
    (hst : image_symbol_table t remote_header = some st)
    (hall : ∀ j, j < st.nsyms → ∃ sym, symbol_entry t st j = some sym
      ∧ (sym.n_value ≠ 0 → ∃ symname,
          _copyin_string t (symbol_name_addr st sym) = Outcome.ret symname
            ∧ symname ≠ [])) :
    ∃ c, (∃ j sym, j < st.nsyms ∧ symbol_entry t st j = some sym
          ∧ entry_matches t name st j
          ∧ (∀ k, k < j → ¬ entry_matches t name st k)
          ∧ _scan_remote_image_for_symbol t remote_header name f
              = Outcome.ret (sym.n_value, c))
      ∨ ((∀ j, j < st.nsyms → ¬ entry_matches t name st j)
          ∧ _scan_remote_image_for_symbol t remote_header name f = Outcome.ret (0, c)) := by
  obtain ⟨header, _, hscan⟩ := scan_of_symbol_table t remote_header st hst
  refine ⟨from_shared_cache header, ?_⟩
  rw [hscan name f, scan_symbols_eq_from t name st
    (image_symbol_table_lt t remote_header st hst)]
  rcases scan_symbols_from_first t name st st.nsyms 0
      (fun j _ h2 => hall j (by omega)) with
    ⟨j, sym, _, h2, h3, h4, h5, h6⟩ | ⟨h1, h2⟩
  · refine Or.inl ⟨j, sym, by omega, h3, h4, fun k hk => h5 k (Nat.zero_le k) hk, ?_⟩
    rw [h6]
  · refine Or.inr ⟨fun j hj => h1 j (Nat.zero_le j) (by omega), ?_⟩
    rw [h2]

/-! ## The load-command walk -/

theorem last_addr_of_none (p : visited_command → Bool) :
    ∀ (cmds : List visited_command) (init : Nat), (∀ c ∈ cmds, p c = false) →
      last_addr p cmds init = init := by
  intro cmds
  induction cmds with
  | nil => intro init _; rfl
  | cons c rest ih =>
    intro init h
    rw [last_addr, h c (by simp)]
    exact ih init (fun d hd => h d (List.mem_cons_of_mem c hd))

/-- A walk that runs to its end records, for each of the three kinds, the
address of the last visited command of that kind. -/
theorem walk_of_visited_commands (t : Task) :
    ∀ (n command_addr s l x : Nat) (cmds : List visited_command),
      visited_commands t n command_addr = Outcome.ret (some cmds) →
      walk_load_commands t n command_addr s l x
        = Outcome.ret (some
            (last_addr (fun c => decide (c.command.cmd = LC_SYMTAB)) cmds s,
             last_addr (fun c => decide (c.segname = some SEG_LINKEDIT)) cmds l,
             last_addr (fun c => decide (c.segname = some SEG_TEXT)) cmds x)) := by
  intro n
  induction n with
  | zero =>
    intro command_addr s l x cmds h
    simp only [visited_commands, Outcome.ret.injEq, Option.some.injEq] at h
    subst h
    rfl
  | succ n ih =>
    intro command_addr s l x cmds h
    have e : (2 : ℕ) ^ 64 = 18446744073709551616 := by norm_num
    rw [visited_commands] at h
    rw [walk_load_commands]
    cases hr : mach_vm_read_overwrite t command_addr sizeof_load_command with
    | none => simp [hr] at h
    | some cb =>
      simp only [hr, e] at h ⊢
      by_cases hseg : (load_command.decode cb).cmd = LC_SEGMENT
          ∨ (load_command.decode cb).cmd = LC_SEGMENT_64
      · have hnot : ¬ (load_command.decode cb).cmd = LC_SYMTAB := by
          intro h2
          rw [h2] at hseg
          revert hseg
          decide
        rw [if_pos hseg] at h
        rw [if_neg hnot, if_pos hseg]
        cases hc : _copyin_string t
            ((command_addr + sizeof_load_command) % 18446744073709551616) with
        | abort => simp [hc] at h
        | undef => simp [hc] at h
        | ret segname =>
          simp only [hc] at h ⊢
          cases hv : visited_commands t n
              ((command_addr + (load_command.decode cb).cmdsize) % 18446744073709551616) with
          | abort => simp [hv] at h
          | undef => simp [hv] at h
          | ret r =>
            cases r with
            | none => simp [hv] at h
            | some rest =>
              simp only [hv, Outcome.ret.injEq, Option.some.injEq] at h
              subst h
              have hne : ¬ (SEG_TEXT = SEG_LINKEDIT) := by decide
              have hne' : ¬ (SEG_LINKEDIT = SEG_TEXT) := by decide
              by_cases htext : SEG_TEXT = segname
              · rw [if_pos htext, ih _ s l command_addr rest hv]
                simp [last_addr, hnot, htext.symm, hne]
              · by_cases hlink : SEG_LINKEDIT = segname
                · rw [if_neg htext, if_pos hlink, ih _ s command_addr x rest hv]
                  have h1 : ¬ (segname = SEG_TEXT) := fun h2 => htext h2.symm
                  simp [last_addr, hnot, hlink.symm, hne']
                · rw [if_neg htext, if_neg hlink, ih _ s l x rest hv]
                  have h1 : ¬ (segname = SEG_TEXT) := fun h2 => htext h2.symm
                  have h2 : ¬ (segname = SEG_LINKEDIT) := fun h2 => hlink h2.symm
                  simp [last_addr, hnot, h1, h2]
      · rw [if_neg hseg] at h
        cases hv : visited_commands t n
            ((command_addr + (load_command.decode cb).cmdsize) % 18446744073709551616) with
        | abort => simp [hv] at h
        | undef => simp [hv] at h
        | ret r =>
          cases r with
          | none => simp [hv] at h
          | some rest =>
            simp only [hv, Outcome.ret.injEq, Option.some.injEq] at h
            subst h
            by_cases hsym : (load_command.decode cb).cmd = LC_SYMTAB
            · rw [if_pos hsym, ih _ command_addr l x rest hv]
              simp [last_addr, hsym]
            · rw [if_neg hsym, if_neg hseg, ih _ s l x rest hv]
              simp [last_addr, hsym]

theorem last_addr_recorded (p : visited_command → Bool) :
    ∀ (cmds : List visited_command) (init : Nat),
      (last_addr p cmds init = init ∧ ∀ c ∈ cmds, p c = false)
        ∨ (∃ c ∈ cmds, p c = true ∧ c.addr = last_addr p cmds init) := by
  intro cmds
  induction cmds with
  | nil => intro init; exact Or.inl ⟨rfl, by simp⟩
  | cons c rest ih =>
    intro init
    rw [last_addr]
    by_cases hp : p c = true
    · rw [if_pos hp]
      rcases ih c.addr with ⟨h1, h2⟩ | ⟨d, hd, h1, h2⟩
      · exact Or.inr ⟨c, by simp, hp, h1.symm⟩
      · exact Or.inr ⟨d, List.mem_cons_of_mem c hd, h1, h2⟩
    · rw [if_neg hp]
      rcases ih init with ⟨h1, h2⟩ | ⟨d, hd, h1, h2⟩
      · refine Or.inl ⟨h1, ?_⟩
        intro d hd
        rcases List.mem_cons.mp hd with h | h
        · rw [h]
          simpa using hp
        · exact h2 d h
      · exact Or.inr ⟨d, List.mem_cons_of_mem c hd, h1, h2⟩

/-- The walk visits `cmds` exactly when they are `n` commands chained from
`command_addr` whose reads succeed. -/
theorem visited_commands_iff_chain (t : Task) :
    ∀ (n command_addr : Nat) (cmds : List visited_command),
      visited_commands t n command_addr = Outcome.ret (some cmds)
        ↔ cmds.length = n ∧ command_chain t command_addr cmds := by
  intro n
  induction n with
  | zero =>
    intro command_addr cmds
    simp only [visited_commands, Outcome.ret.injEq, Option.some.injEq]
    constructor
    · intro h
      subst h
      exact ⟨rfl, trivial⟩
    · intro h
      exact (List.length_eq_zero.mp h.1).symm
  | succ n ih =>
    intro command_addr cmds
    have e : (2 : ℕ) ^ 64 = 18446744073709551616 := by norm_num
    rw [visited_commands]
    cases hr : mach_vm_read_overwrite t command_addr sizeof_load_command with
    | none =>
      simp only [e]
      constructor
      · intro h
        cases h
      · intro h
        cases cmds with
        | nil => simp at h
        | cons c rest =>
          have h2 := h.2
          simp only [command_chain, hr, Option.map_none'] at h2
          cases h2.2.1
    | some cb =>
      simp only [e]
      by_cases hseg : (load_command.decode cb).cmd = LC_SEGMENT
          ∨ (load_command.decode cb).cmd = LC_SEGMENT_64
      · rw [if_pos hseg]
        constructor
        · intro h
          cases hc : _copyin_string t
              ((command_addr + sizeof_load_command) % 18446744073709551616) with
          | abort => simp [hc] at h
          | undef => simp [hc] at h
          | ret segname =>
            simp only [hc] at h
            cases hv : visited_commands t n
                ((command_addr + (load_command.decode cb).cmdsize)
                  % 18446744073709551616) with
            | abort => simp [hv] at h
            | undef => simp [hv] at h
            | ret r =>
              cases r with
              | none => simp [hv] at h
              | some rest =>
                simp only [hv, Outcome.ret.injEq, Option.some.injEq] at h
                subst h
                have hrest := (ih _ rest).mp hv
                refine ⟨by simp [hrest.1], ?_⟩
                simp only [command_chain, hr, Option.map_some', e, if_pos hseg, true_and]
                refine ⟨⟨segname, rfl, ?_⟩, hrest.2⟩
                simpa [sizeof_load_command] using hc
        · intro h
          cases cmds with
          | nil => simp at h
          | cons c rest =>
            obtain ⟨hlen, hchain⟩ := h
            simp only [command_chain, hr, Option.map_some', Option.some.injEq, e] at hchain
            obtain ⟨haddr, hcmd, hname, hrest⟩ := hchain
            rw [← hcmd, if_pos hseg] at hname
            obtain ⟨segname, hs1, hs2⟩ := hname
            have hv := (ih ((command_addr + c.command.cmdsize) % 18446744073709551616)
              rest).mpr ⟨by simpa using hlen, hrest⟩
            rw [← hcmd] at hv
            have hs2' : _copyin_string t
                ((command_addr + sizeof_load_command) % 18446744073709551616)
                  = Outcome.ret segname := by
              simpa [sizeof_load_command] using hs2
            simp only [hs2', hv, Outcome.ret.injEq, Option.some.injEq, List.cons.injEq,
              and_true]
            cases c
            simp_all
      · rw [if_neg hseg]
        constructor
        · intro h
          cases hv : visited_commands t n
              ((command_addr + (load_command.decode cb).cmdsize)
                % 18446744073709551616) with
          | abort => simp [hv] at h
          | undef => simp [hv] at h
          | ret r =>
            cases r with
            | none => simp [hv] at h
            | some rest =>
              simp only [hv, Outcome.ret.injEq, Option.some.injEq] at h
              subst h
              have hrest := (ih _ rest).mp hv
              refine ⟨by simp [hrest.1], ?_⟩
              simp only [command_chain, hr, Option.map_some', e, if_neg hseg, true_and]
              exact hrest.2
        · intro h
          cases cmds with
          | nil => simp at h
          | cons c rest =>
            obtain ⟨hlen, hchain⟩ := h
            simp only [command_chain, hr, Option.map_some', Option.some.injEq, e] at hchain
            obtain ⟨haddr, hcmd, hname, hrest⟩ := hchain
            rw [← hcmd, if_neg hseg] at hname
            have hv := (ih ((command_addr + c.command.cmdsize) % 18446744073709551616)
              rest).mpr ⟨by simpa using hlen, hrest⟩
            rw [← hcmd] at hv
            simp only [hv, Outcome.ret.injEq, Option.some.injEq, List.cons.injEq, and_true]
            cases c
            simp_all

theorem stopped_cons (o : Outcome (Option (List visited_command))) (c : visited_command)
    (w : Outcome (Option (Nat × Nat × Nat)))
    (h : (o = Outcome.ret none → w = Outcome.ret none)
      ∧ (o = Outcome.abort → w = Outcome.abort)
      ∧ (o = Outcome.undef → w = Outcome.undef)) :
    ((match o with
        | Outcome.ret (some rest) => Outcome.ret (some (c :: rest))
        | other => other) = Outcome.ret none → w = Outcome.ret none)
      ∧ ((match o with
        | Outcome.ret (some rest) => Outcome.ret (some (c :: rest))
        | other => other) = Outcome.abort → w = Outcome.abort)
      ∧ ((match o with
        | Outcome.ret (some rest) => Outcome.ret (some (c :: rest))
        | other => other) = Outcome.undef → w = Outcome.undef) := by
  cases o with
  | abort => simpa using h
  | undef => simpa using h
  | ret r =>
    cases r with
    | none => simpa using h
    | some rest => simp

/-- A walk that does not run to its end stops the way the visit of its
commands stops: on a failed prefix read, on the assertion of
`_copyin_string`, or undefined. -/
theorem walk_of_visited_stopped (t : Task) :
    ∀ (n command_addr s l x : Nat),
      (visited_commands t n command_addr = Outcome.ret none →
          walk_load_commands t n command_addr s l x = Outcome.ret none)
        ∧ (visited_commands t n command_addr = Outcome.abort →
          walk_load_commands t n command_addr s l x = Outcome.abort)
        ∧ (visited_commands t n command_addr = Outcome.undef →
          walk_load_commands t n command_addr s l x = Outcome.undef) := by
  intro n
  induction n with
  | zero =>
    intro command_addr s l x
    simp [visited_commands]
  | succ n ih =>
    intro command_addr s l x
    rw [visited_commands, walk_load_commands]
    cases hr : mach_vm_read_overwrite t command_addr sizeof_load_command with
    | none => simp
    | some cb =>
      simp only []
      by_cases hseg : (load_command.decode cb).cmd = LC_SEGMENT
          ∨ (load_command.decode cb).cmd = LC_SEGMENT_64
      · have hnot : ¬ (load_command.decode cb).cmd = LC_SYMTAB := by
          intro h2
          rw [h2] at hseg
          revert hseg
          decide
        rw [if_pos hseg, if_neg hnot, if_pos hseg]
        cases _copyin_string t ((command_addr + sizeof_load_command) % 2 ^ 64) with
        | abort => simp
        | undef => simp
        | ret segname =>
          simp only []
          by_cases htext : SEG_TEXT = segname
          · rw [if_pos htext]
            exact stopped_cons _ _ _ (ih _ s l command_addr)
          · rw [if_neg htext]
            by_cases hlink : SEG_LINKEDIT = segname
            · rw [if_pos hlink]
              exact stopped_cons _ _ _ (ih _ s command_addr x)
            · rw [if_neg hlink]
              exact stopped_cons _ _ _ (ih _ s l x)
      · rw [if_neg hseg]
        by_cases hsym : (load_command.decode cb).cmd = LC_SYMTAB
        · rw [if_pos hsym]
          exact stopped_cons _ _ _ (ih _ command_addr l x)
        · rw [if_neg hsym, if_neg hseg]
          exact stopped_cons _ _ _ (ih _ s l x)

theorem copyin_string_ne_undef (t : Task) (pointer : Nat) :
    _copyin_string t pointer ≠ Outcome.undef := by
  unfold _copyin_string
  split
  · simp
  · split <;> simp

/-- The load-command walk has no undefined behaviour of its own. -/
theorem walk_ne_undef (t : Task) :
    ∀ (n command_addr s l x : Nat),
      walk_load_commands t n command_addr s l x ≠ Outcome.undef := by
  intro n
  induction n with
  | zero =>
    intro command_addr s l x
    simp [walk_load_commands]
  | succ n ih =>
    intro command_addr s l x
    rw [walk_load_commands]
    cases hr : mach_vm_read_overwrite t command_addr sizeof_load_command with
    | none => simp
    | some cb =>
      simp only []
      split
      · exact ih _ _ _ _
      · split
        · cases hc : _copyin_string t ((command_addr + sizeof_load_command) % 2 ^ 64) with
          | abort => simp
          | undef => exact absurd hc (copyin_string_ne_undef t _)
          | ret segname =>
            simp only []
            split
            · exact ih _ _ _ _
            · split
              · exact ih _ _ _ _
              · exact ih _ _ _ _
        · exact ih _ _ _ _

/-! ## The string window -/

theorem read_length (t : Task) (addr size : Nat) (bs : List Nat)
    (h : mach_vm_read_overwrite t addr size = some bs) : bs.length = size := by
  unfold mach_vm_read_overwrite at h
  split at h
  · simp only [Option.some.injEq] at h
    rw [← h]
    simp [fetch]
  · cases h

/-- Overwriting position `k` with NUL cuts the C string at `k`. -/
theorem strdup_set_nul : ∀ (l : List Nat) (k : Nat), k < l.length →
    strdup (l.set k 0) = strdup (l.take k) := by
  intro l
  induction l with
  | nil => intro k hk; simp at hk
  | cons b rest ih =>
    intro k hk
    cases k with
    | zero => simp [strdup, List.takeWhile]
    | succ k =>
      simp only [List.length_cons] at hk
      have := ih k (by omega)
      unfold strdup at this ⊢
      simp only [List.set_cons_succ, List.take_succ_cons, List.takeWhile]
      split
      · rw [this]
      · rfl

theorem strdup_no_nul (l : List Nat) : 0 ∉ strdup l := by
  intro h
  unfold strdup at h
  have := List.mem_takeWhile_imp h
  simp at this

theorem strdup_length_le (l : List Nat) : (strdup l).length ≤ l.length := by
  unfold strdup
  induction l with
  | nil => simp
  | cons b rest ih =>
    simp only [List.takeWhile, List.length_cons]
    split
    · simp only [List.length_cons]
      omega
    · simp

theorem strdup_of_no_nul : ∀ (l : List Nat), (∀ b ∈ l, b ≠ 0) → strdup l = l := by
  intro l
  induction l with
  | nil => intro _; rfl
  | cons b rest ih =>
    intro h
    have hb : b ≠ 0 := h b (by simp)
    have hrest := ih (fun x hx => h x (List.mem_cons_of_mem b hx))
    unfold strdup at hrest ⊢
    have hb' : (b != 0) = true := by simpa using hb
    simp only [List.takeWhile, hb', hrest]

/-- With a NUL among the first `k` bytes the C string of the first `k` bytes
is the C string of the whole buffer. -/
theorem strdup_take_of_nul : ∀ (l : List Nat) (k : Nat), 0 ∈ l.take k →
    strdup (l.take k) = strdup l := by
  intro l
  induction l with
  | nil => intro k h; simp at h
  | cons b rest ih =>
    intro k h
    cases k with
    | zero => simp at h
    | succ k =>
      simp only [List.take_succ_cons, List.mem_cons] at h
      unfold strdup
      simp only [List.take_succ_cons, List.takeWhile]
      by_cases hb : b = 0
      · simp [hb]
      · have hin : 0 ∈ rest.take k := by
          rcases h with h | h
          · exact absurd h.symm hb
          · exact h
        have := ih k hin
        unfold strdup at this
        simp [hb, this]

/-! ## The enumerators -/

theorem load_addresses_length (bs : List Nat) (stride width : Nat) :
    ∀ count, (load_addresses bs stride width count).length = count := by
  intro count
  induction count with
  | zero => rfl
  | succ n ih => simp [load_addresses, ih]

/-- Entry `i` of the header list is the load address of entry `i` of the
array. -/
theorem load_addresses_getD (bs : List Nat) (stride width : Nat) :
    ∀ count i, i < count →
      (load_addresses bs stride width count).getD i 0 = field bs (stride * i) width := by
  intro count
  induction count with
  | zero => intro i hi; omega
  | succ n ih =>
    intro i hi
    rw [load_addresses]
    by_cases hin : i < n
    · rw [List.getD_append _ _ _ _ (by rw [load_addresses_length]; exact hin)]
      exact ih i hin
    · have hi' : i = n := by omega
      subst hi'
      rw [List.getD_append_right _ _ _ _ (by rw [load_addresses_length])]
      simp [load_addresses_length]

/-- The 64-bit enumerator when both reads succeed and the record covers the
fields used. -/
theorem image_headers_64_of_reads (t : Task) (dyld_info : task_dyld_info_data_t)
    (want_headers : Bool) (count slide : Nat) (ib ab : List Nat)
    (hsize : 160 ≤ dyld_info.all_image_info_size)
    (hfit : dyld_info.all_image_info_size ≤ sizeof_dyld_all_image_infos_64)
    (h1 : mach_vm_read_overwrite t dyld_info.all_image_info_addr
      dyld_info.all_image_info_size = some ib)
    (h2 : mach_vm_read_overwrite t (dyld_all_image_infos.decode64 ib).infoArray
      (sizeof_dyld_image_info_64 * (dyld_all_image_infos.decode64 ib).infoArrayCount)
        = some ab) :
    _image_headers_from_dyld_info64 t dyld_info want_headers count slide
      = Outcome.ret
          { err := KERN_SUCCESS,
            count := (dyld_all_image_infos.decode64 ib).infoArrayCount,
            headers :=
              if want_headers then
                load_addresses ab sizeof_dyld_image_info_64 8
                  (dyld_all_image_infos.decode64 ib).infoArrayCount
              else [],
            shared_cache_slide := (dyld_all_image_infos.decode64 ib).sharedCacheSlide } := by
  unfold _image_headers_from_dyld_info64
  rw [h1]
  simp only []
  rw [if_neg (by omega), if_neg (by omega), h2]

/-- The 32-bit enumerator when both reads succeed and the record covers the
fields used. -/
theorem image_headers_32_of_reads (t : Task) (dyld_info : task_dyld_info_data_t)
    (want_headers : Bool) (count slide : Nat) (ib ab : List Nat)
    (hsize : 84 ≤ dyld_info.all_image_info_size)
    (hfit : dyld_info.all_image_info_size ≤ sizeof_dyld_all_image_infos_32)
    (h1 : mach_vm_read_overwrite t dyld_info.all_image_info_addr
      dyld_info.all_image_info_size = some ib)
    (h2 : mach_vm_read_overwrite t (dyld_all_image_infos.decode32 ib).infoArray
      (sizeof_dyld_image_info_32 * (dyld_all_image_infos.decode32 ib).infoArrayCount)
        = some ab) :
    _image_headers_from_dyld_info32 t dyld_info want_headers count slide
      = Outcome.ret
          { err := KERN_SUCCESS,
            count := (dyld_all_image_infos.decode32 ib).infoArrayCount,
            headers :=
              if want_headers then
                load_addresses ab sizeof_dyld_image_info_32 4
                  (dyld_all_image_infos.decode32 ib).infoArrayCount
              else [],
            shared_cache_slide := (dyld_all_image_infos.decode32 ib).sharedCacheSlide } := by
  unfold _image_headers_from_dyld_info32
  rw [h1]
  simp only []
  rw [if_neg (by omega), if_neg (by omega), h2]

/-- A failed read of the entry array makes either enumerator return
`KERN_FAILURE`. -/
theorem image_headers_of_failed_array_read (t : Task) (dyld_info : task_dyld_info_data_t)
    (want_headers : Bool) (count slide : Nat) (ib : List Nat)
    (h1 : mach_vm_read_overwrite t dyld_info.all_image_info_addr
      dyld_info.all_image_info_size = some ib) :
    (160 ≤ dyld_info.all_image_info_size →
      dyld_info.all_image_info_size ≤ sizeof_dyld_all_image_infos_64 →
      mach_vm_read_overwrite t (dyld_all_image_infos.decode64 ib).infoArray
        (sizeof_dyld_image_info_64 * (dyld_all_image_infos.decode64 ib).infoArrayCount)
          = none →
      ∃ r, _image_headers_from_dyld_info64 t dyld_info want_headers count slide
          = Outcome.ret r ∧ r.err = KERN_FAILURE)
      ∧ (84 ≤ dyld_info.all_image_info_size →
      dyld_info.all_image_info_size ≤ sizeof_dyld_all_image_infos_32 →
      mach_vm_read_overwrite t (dyld_all_image_infos.decode32 ib).infoArray
        (sizeof_dyld_image_info_32 * (dyld_all_image_infos.decode32 ib).infoArrayCount)
          = none →
      ∃ r, _image_headers_from_dyld_info32 t dyld_info want_headers count slide
          = Outcome.ret r ∧ r.err = KERN_FAILURE) := by
  constructor
  · intro hsize hfit h2
    unfold _image_headers_from_dyld_info64
    rw [h1]
    simp only []
    rw [if_neg (by omega), if_neg (by omega), h2]
    exact ⟨_, rfl, rfl⟩
  · intro hsize hfit h2
    unfold _image_headers_from_dyld_info32
    rw [h1]
    simp only []
    rw [if_neg (by omega), if_neg (by omega), h2]
    exact ⟨_, rfl, rfl⟩

/-- The lookup returns 0 when the first enumerator call returns
`KERN_FAILURE`, and when the second one does. -/
theorem lookup_of_enumerator_failure (t : Task) (symbol_name : List Nat)
    (hname : symbol_name ≠ []) (first : image_headers)
    (h1 : _image_headers_in_task t false 0 0 = Outcome.ret first) :
    (first.err ≠ KERN_SUCCESS → lorgnette_lookup t symbol_name = Outcome.ret 0)
      ∧ (∀ second, first.err = KERN_SUCCESS →
          _image_headers_in_task t true first.count first.shared_cache_slide
            = Outcome.ret second →
          second.err ≠ KERN_SUCCESS → lorgnette_lookup t symbol_name = Outcome.ret 0) := by
  constructor
  · intro he
    unfold lorgnette_lookup
    rw [if_neg hname, h1]
    simp only []
    rw [if_pos he]
  · intro second he h2 he2
    unfold lorgnette_lookup
    rw [if_neg hname, h1]
    simp only []
    rw [if_neg (by simpa using he), h2]
    simp only []
    rw [if_pos he2]

/-- Two successful enumerator calls on the same target report the same
count. -/
theorem image_headers_count_stable (t : Task) (b b' : Bool) (c s c' s' : Nat)
    (r r' : image_headers)
    (h : _image_headers_in_task t b c s = Outcome.ret r)
    (h' : _image_headers_in_task t b' c' s' = Outcome.ret r')
    (he : r.err = KERN_SUCCESS) :
    r'.count = r.count := by
  have hk : KERN_FAILURE ≠ KERN_SUCCESS := by decide
  unfold _image_headers_in_task at h h'
  cases hd : t.dyld_info with
  | none =>
    simp only [hd, Outcome.ret.injEq] at h
    rw [← h] at he
    exact absurd he hk
  | some data =>
    simp only [hd] at h h'
    by_cases hf : data.all_image_info_format = TASK_DYLD_ALL_IMAGE_INFO_32
    · rw [if_pos hf] at h h'
      unfold _image_headers_from_dyld_info32 at h h'
      cases h1 : mach_vm_read_overwrite t data.all_image_info_addr
          data.all_image_info_size with
      | none => simp [h1] at h
      | some ib =>
        simp only [h1] at h h'
        by_cases hfit : sizeof_dyld_all_image_infos_32 < data.all_image_info_size
        · simp [hfit] at h
        · rw [if_neg hfit] at h h'
          by_cases hsz : data.all_image_info_size < 84
          · simp [hsz] at h
          · rw [if_neg hsz] at h h'
            cases h2 : mach_vm_read_overwrite t
                (dyld_all_image_infos.decode32 ib).infoArray
                (sizeof_dyld_image_info_32
                  * (dyld_all_image_infos.decode32 ib).infoArrayCount) with
            | none =>
              simp only [h2, Outcome.ret.injEq] at h
              rw [← h] at he
              exact absurd he hk
            | some ab =>
              simp only [h2, Outcome.ret.injEq] at h h'
              rw [← h, ← h']
    · rw [if_neg hf] at h h'
      unfold _image_headers_from_dyld_info64 at h h'
      cases h1 : mach_vm_read_overwrite t data.all_image_info_addr
          data.all_image_info_size with
      | none => simp [h1] at h
      | some ib =>
        simp only [h1] at h h'
        by_cases hfit : sizeof_dyld_all_image_infos_64 < data.all_image_info_size
        · simp [hfit] at h
        · rw [if_neg hfit] at h h'
          by_cases hsz : data.all_image_info_size < 160
          · simp [hsz] at h
          · rw [if_neg hsz] at h h'
            cases h2 : mach_vm_read_overwrite t
                (dyld_all_image_infos.decode64 ib).infoArray
                (sizeof_dyld_image_info_64
                  * (dyld_all_image_infos.decode64 ib).infoArrayCount) with
            | none =>
              simp only [h2, Outcome.ret.injEq] at h
              rw [← h] at he
              exact absurd he hk
            | some ab =>
              simp only [h2, Outcome.ret.injEq] at h h'
              rw [← h, ← h']

/-- On a target that does not change the two-state lookup is
`lorgnette_lookup`. -/
theorem lorgnette_lookup_changing_same (t : Task) (symbol_name : List Nat) :
    lorgnette_lookup_changing t t symbol_name = lorgnette_lookup t symbol_name := by
  unfold lorgnette_lookup_changing lorgnette_lookup
  by_cases hname : symbol_name = []
  · rw [if_pos hname, if_pos hname]
  · rw [if_neg hname, if_neg hname]
    cases h1 : _image_headers_in_task t false 0 0 with
    | abort => rfl
    | undef => rfl
    | ret first =>
      simp only []
      by_cases he : first.err ≠ KERN_SUCCESS
      · rw [if_pos he, if_pos he]
      · rw [if_neg he, if_neg he]
        cases h2 : _image_headers_in_task t true first.count first.shared_cache_slide with
        | abort => rfl
        | undef => rfl
        | ret second =>
          simp only []
          by_cases he2 : second.err ≠ KERN_SUCCESS
          · rw [if_pos he2, if_pos he2]
          · rw [if_neg he2, if_neg he2]
            have hc := image_headers_count_stable t false true 0 0 first.count
              first.shared_cache_slide first second h1 h2 (by simpa using he)
            rw [if_neg (by omega)]

/-! ## The claims -/

/-- C1 (evaluation at the failing input).  The target lists one image, which
carries the shared-cache flag and does not define `foo`; the registry query
and the enumeration succeed and the only scan returns 0, yet
`lorgnette_lookup` returns the shared-cache slide `0x5000`, not 0. -/
theorem lookup_no_match_returns_slide :
    image_list target_cache_main = some ([0x2000], 0x5000)
      ∧ (∀ x ∈ [0x2000], ∃ g,
          _scan_remote_image_for_symbol target_cache_main x name_foo false
            = Outcome.ret (0, g))
      ∧ lorgnette_lookup target_cache_main name_foo = Outcome.ret 0x5000 := by
  set_option maxRecDepth 100000 in
  refine ⟨by decide!, ?_, by decide!⟩
  intro x hx
  rw [List.mem_singleton] at hx
  subst hx
  exact ⟨true, by decide!⟩

/-- C2 (counterexample).  Image 0 is a 64-bit image (magic `MH_MAGIC_64`) at
`0x100000000` whose matching entry stores `V = 0x2000`: the lookup returns
`V - 0x1000 + headers[0] = 0x100001000`, not
`V - 0x100000000 + headers[0] = 0x2000`. -/
theorem main_image_rebase_counterexample :
    image_list target_low_value = some ([0x100000000], 0)
      ∧ (image_header target_low_value 0x100000000).map (fun header => header.magic)
          = some MH_MAGIC_64
      ∧ _scan_remote_image_for_symbol target_low_value 0x100000000 name_foo false
          = Outcome.ret (0x2000, false)
      ∧ lorgnette_lookup target_low_value name_foo = Outcome.ret 0x100001000
      ∧ (0x100001000 : Int) ≠ 0x2000 - 0x100000000 + 0x100000000 := by
  set_option maxRecDepth 100000 in
  exact ⟨by decide!, by decide!, by decide!, by decide!, by decide⟩

/-- C2 (amended).  When the first matching image is image 0 and its matching
entry stores `V`, `lorgnette_lookup` returns, in 64-bit arithmetic,
`V - default_base + headers[0]`, plus the shared-cache slide when the header
of image 0 has the flag bit `0x80000000`; `default_base` is `0x1000` when
`V < 0x100000000` and `0x100000000` otherwise, and `V < 0x100000000` always
holds when image 0 is a 32-bit image (magic `MH_MAGIC`). -/
theorem main_image_rebase (t : Task) (symbol_name : List Nat) (image : Nat)
    (post : List Nat) (slide v : Nat) (c : Bool) (header : mach_header)
    (hname : symbol_name ≠ [])
    (hlist : image_list t = some (image :: post, slide))
    (hh : image_header t image = some header)
    (hm : _scan_remote_image_for_symbol t image symbol_name false = Outcome.ret (v, c))
    (hv : 0 < v) :
    lorgnette_lookup t symbol_name
        = Outcome.ret
            ((v + 2 ^ 64 - (if v < 0x100000000 then 0x1000 else 0x100000000) + image
              + (if header.flags &&& 0x80000000 = 0x80000000 then slide else 0)) % 2 ^ 64)
      ∧ (header.magic = MH_MAGIC → v < 0x100000000) := by
  constructor
  · have hc := scan_flag_of_header t image symbol_name false c v header hh hm
    rw [lookup_first_match t symbol_name [] image post slide v c hname hlist
      (by simp) hm hv]
    simp only [from_shared_cache, kImageFromSharedCacheFlag] at hc
    cases c
    · have hf : ¬ (header.flags &&& 0x80000000 = 0x80000000) := by
        intro h
        simp [h] at hc
      simp [hf]
    · have hf : header.flags &&& 0x80000000 = 0x80000000 := by
        simpa using hc.symm
      simp [hf]
  · intro hmagic
    exact scan_value_lt_of_magic t image symbol_name false c v header hh hmagic hm

/-- C2 (witness): a 32-bit main image at `0x2000` defining `_foo` at
`0x1f00`. -/
theorem main_image_rebase_witness :
    lorgnette_lookup target_main32 name_foo = Outcome.ret 0x2f00 := by
  set_option maxRecDepth 100000 in
  have h := (main_image_rebase target_main32 name_foo 0x2000 [] 0x5000 0x1f00 false
    { magic := MH_MAGIC, ncmds := 3, flags := 0 }
    (by decide) (by decide!) (by decide!) (by decide!) (by decide)).1
  rw [h]
  decide

/-- C3 (counterexample).  The first matching image is image 0, it carries the
shared-cache flag and its matching entry stores `V = 0x1234`; with the slide
`0x5000` the lookup returns `0x7234` (the main-image rebase is applied as
well), not `V + shared_cache_slide = 0x6234`. -/
theorem shared_cache_slide_counterexample :
    image_list target_cache_main = some ([0x2000], 0x5000)
      ∧ (image_header target_cache_main 0x2000).map
          (fun header => header.flags &&& 0x80000000) = some 0x80000000
      ∧ _scan_remote_image_for_symbol target_cache_main 0x2000 [98, 97, 114] false
          = Outcome.ret (0x1234, true)
      ∧ lorgnette_lookup target_cache_main [98, 97, 114] = Outcome.ret 0x7234
      ∧ 0x7234 ≠ 0x1234 + 0x5000 := by
  set_option maxRecDepth 100000 in
  exact ⟨by decide!, by decide!, by decide!, by decide!, by decide⟩

/-- C3 (amended).  When the first matching image has the header flag bit
`0x80000000` set and its matching entry stores `V`, `lorgnette_lookup`
returns `V + shared_cache_slide` in 64-bit arithmetic if that image is not
image 0; if it is image 0 the main-image rebase is applied before the slide
is added. -/
theorem shared_cache_slide_added (t : Task) (symbol_name pre : List Nat) (image : Nat)
    (post : List Nat) (slide v : Nat) (c : Bool) (header : mach_header)
    (hname : symbol_name ≠ [])
    (hlist : image_list t = some (pre ++ image :: post, slide))
    (hpre : ∀ x ∈ pre, ∃ g, _scan_remote_image_for_symbol t x symbol_name false
      = Outcome.ret (0, g))
    (hh : image_header t image = some header)
    (hflag : header.flags &&& 0x80000000 = 0x80000000)
    (hm : _scan_remote_image_for_symbol t image symbol_name false = Outcome.ret (v, c))
    (hv : 0 < v) :
    lorgnette_lookup t symbol_name
      = Outcome.ret
          (if pre = [] then
            (v + 2 ^ 64 - (if v < 0x100000000 then 0x1000 else 0x100000000) + image
              + slide) % 2 ^ 64
           else (v + slide) % 2 ^ 64) := by
  have hc := scan_flag_of_header t image symbol_name false c v header hh hm
  have hc' : c = true := by
    rw [hc]
    simp [from_shared_cache, kImageFromSharedCacheFlag, hflag]
  rw [lookup_first_match t symbol_name pre image post slide v c hname hlist hpre hm hv, hc']
  by_cases hp : pre = []
  · simp [hp]
  · simp [hp]

/-- C3 (witness): the library at index 1 carries the flag and defines `_foo`
at `0x1f00`; the lookup of `foo` returns `0x1f00 + 0x5000`. -/
theorem shared_cache_slide_added_witness :
    lorgnette_lookup target_library name_foo = Outcome.ret 0x6f00 := by
  set_option maxRecDepth 100000 in
  have h := shared_cache_slide_added target_library name_foo [0x2000] 0x3000 [] 0x5000
    0x1f00 true { magic := MH_MAGIC, ncmds := 3, flags := 0x80000000 }
    (by decide) (by decide!)
    (by
      intro x hx
      rw [List.mem_singleton] at hx
      subst hx
      exact ⟨false, by decide!⟩)
    (by decide!) (by decide) (by decide!) (by decide)
  rw [h]
  decide

/-- C4 (evaluation at the failing input).  The name test drops the first
character of the stored name whatever it is: the stored name `xfoo` passes
the test for `foo` although it is neither `foo` nor `_foo`, and the scanner
returns the value of that entry on the 32-bit and on the 64-bit path.  For
the empty stored name the second comparison reads past the end of the
string. -/
theorem underscore_rule_any_first_character :
    name_matches name_foo [120, 102, 111, 111] = Outcome.ret true
      ∧ [120, 102, 111, 111] ≠ name_foo
      ∧ [120, 102, 111, 111] ≠ 95 :: name_foo
      ∧ image_symbol_names target_xfoo32 0x2000 = [[120, 102, 111, 111]]
      ∧ _scan_remote_image_for_symbol target_xfoo32 0x2000 name_foo false
          = Outcome.ret (0x1500, false)
      ∧ image_symbol_names target_xfoo64 0x100000000 = [[120, 102, 111, 111]]
      ∧ _scan_remote_image_for_symbol target_xfoo64 0x100000000 name_foo false
          = Outcome.ret (0x100001500, false)
      ∧ name_matches name_foo [] = Outcome.undef := by
  set_option maxRecDepth 100000 in
  exact ⟨by decide, by decide, by decide, by decide!, by decide!, by decide!, by decide!,
    by decide⟩

/-- C6.  Skip-zero rule: a non-zero value returned by the scanner is the
`n_value` of an entry of the located table that has a non-zero value and a
stored name passing the name test; and in both symbol loops an entry whose
`n_value` is 0 is passed over without any read of its name, whatever the
memory at its name address is. -/
theorem skip_zero_rule (t : Task) (remote_header : Nat) (symbol_name : List Nat)
    (f c : Bool) (v : Nat)
    (hs : _scan_remote_image_for_symbol t remote_header symbol_name f = Outcome.ret (v, c))
    (hv : v ≠ 0) :
    (∃ st i sym symname, image_symbol_table t remote_header = some st
        ∧ i < st.nsyms ∧ symbol_entry t st i = some sym
        ∧ sym.n_value = v ∧ sym.n_value ≠ 0
        ∧ _copyin_string t (symbol_name_addr st sym) = Outcome.ret symname
        ∧ name_matches symbol_name symname = Outcome.ret true)
      ∧ (∀ (strings n sym_addr : Nat) (sb : List Nat),
          mach_vm_read_overwrite t sym_addr sizeof_nlist_64 = some sb →
          (nlist.decode64 sb).n_value = 0 →
          scan_symbols_64 t symbol_name strings (n + 1) sym_addr
            = scan_symbols_64 t symbol_name strings n ((sym_addr + 16) % 2 ^ 64))
      ∧ (∀ (strings n sym_addr : Nat) (sb : List Nat),
          mach_vm_read_overwrite t sym_addr sizeof_nlist = some sb →
          (nlist.decode sb).n_value = 0 →
          scan_symbols_32 t symbol_name strings (n + 1) sym_addr
            = scan_symbols_32 t symbol_name strings n ((sym_addr + 12) % 2 ^ 32)) := by
  refine ⟨?_, ?_, ?_⟩
  · rcases scan_ret_cases t remote_header symbol_name f c v hs with h0 | ⟨st, hst, hloop⟩
    · exact absurd h0 hv
    · rw [scan_symbols_eq_from t symbol_name st
        (image_symbol_table_lt t remote_header st hst)] at hloop
      obtain ⟨j, sym, symname, _, h2, h3, h4, h5, h6⟩ :=
        scan_symbols_from_sound t symbol_name st st.nsyms 0 v hloop hv
      exact ⟨st, j, sym, symname, hst, by omega, h3, h4, by rw [h4]; exact hv, h5, h6⟩
  · intro strings n sym_addr sb hr hz
    rw [scan_symbols_64, hr]
    simp only [hz, if_true, sizeof_nlist_64]
  · intro strings n sym_addr sb hr hz
    rw [scan_symbols_32, hr]
    simp only [hz, if_true, sizeof_nlist]

/-- C6 (witness): the first entry of the image is `_foo` with value 0, the
third is `_foo` with value `0x1f00`; the scan for `foo` returns `0x1f00`. -/
theorem skip_zero_rule_witness :
    ∃ st i sym symname, image_symbol_table target_zero_value 0x2000 = some st
      ∧ i < st.nsyms ∧ symbol_entry target_zero_value st i = some sym
      ∧ sym.n_value = 0x1f00 ∧ sym.n_value ≠ 0
      ∧ _copyin_string target_zero_value (symbol_name_addr st sym) = Outcome.ret symname
      ∧ name_matches name_foo symname = Outcome.ret true := by
  set_option maxRecDepth 100000 in
  exact (skip_zero_rule target_zero_value 0x2000 name_foo false false 0x1f00
    (by decide!) (by decide)).1

/-- C8 (evaluation at the failing input).  All remote reads succeed and the
image has valid magic and the three commands; entry 0 has a non-zero value
and the empty stored name, entry 1 is `_foo` and passes the name test for
`foo`.  The scan does not return the value of entry 1: comparing the name
without its first character reads past the end of the empty name of entry 0,
which is undefined. -/
theorem first_symbol_empty_name_undefined :
    image_symbol_table target_empty_name 0x2000
        = some { sixtyfourbit := false, strings := 0x2200, sym_addr := 0x2100, nsyms := 2 }
      ∧ symbol_entry target_empty_name
          { sixtyfourbit := false, strings := 0x2200, sym_addr := 0x2100, nsyms := 2 } 0
          = some { n_strx := 0, n_value := 0x1500 }
      ∧ _copyin_string target_empty_name 0x2200 = Outcome.ret []
      ∧ symbol_entry target_empty_name
          { sixtyfourbit := false, strings := 0x2200, sym_addr := 0x2100, nsyms := 2 } 1
          = some { n_strx := 1, n_value := 0x1f00 }
      ∧ _copyin_string target_empty_name 0x2201 = Outcome.ret (95 :: name_foo)
      ∧ name_matches name_foo (95 :: name_foo) = Outcome.ret true
      ∧ _scan_remote_image_for_symbol target_empty_name 0x2000 name_foo false
          = Outcome.undef := by
  set_option maxRecDepth 100000 in
  exact ⟨by decide!, by decide!, by decide!, by decide!, by decide!, by decide, by decide!⟩

/-- Structural rejection when the load-command walk runs to its end: for an
image with a readable header whose magic is neither `MH_MAGIC` nor
`MH_MAGIC_64`, or whose visited load commands lack an `LC_SYMTAB`, a segment
named `__TEXT` or a segment named `__LINKEDIT`, the scanner returns 0 (with
the header flag as output), it never reaches the symbol loop, and the image
loop of `lorgnette_lookup` goes on with the following images. -/
theorem structural_rejection (t : Task) (remote_header : Nat) (symbol_name : List Nat)
    (f : Bool) (header : mach_header)
    (hpos : remote_header ≠ 0)
    (hh : image_header t remote_header = some header)
    (hrej : (header.magic ≠ MH_MAGIC ∧ header.magic ≠ MH_MAGIC_64)
      ∨ ∃ cmds,
          visited_commands t header.ncmds
            (first_command_addr remote_header (decide (header.magic = MH_MAGIC_64)))
              = Outcome.ret (some cmds)
          ∧ ((∀ c ∈ cmds, c.command.cmd ≠ LC_SYMTAB)
            ∨ (∀ c ∈ cmds, c.segname ≠ some SEG_TEXT)
            ∨ (∀ c ∈ cmds, c.segname ≠ some SEG_LINKEDIT))) :
    _scan_remote_image_for_symbol t remote_header symbol_name f
        = Outcome.ret (0, from_shared_cache header)
      ∧ image_symbol_table t remote_header = none
      ∧ ∀ (headers : List Nat) (i : Nat) (rest : List Nat) (result : Nat),
          lookup_loop t symbol_name headers i (remote_header :: rest) result f
            = lookup_loop t symbol_name headers (i + 1) rest 0 (from_shared_cache header) := by
  have hscan : _scan_remote_image_for_symbol t remote_header symbol_name f
        = Outcome.ret (0, from_shared_cache header)
      ∧ image_symbol_table t remote_header = none := by
    by_cases hmagic : header.magic ≠ MH_MAGIC ∧ header.magic ≠ MH_MAGIC_64
    · refine ⟨scan_of_bad_magic t remote_header symbol_name f header hpos hh hmagic, ?_⟩
      unfold image_symbol_table
      rw [if_neg hpos]
      simp only [hh]
      rw [if_pos hmagic]
    · rcases hrej with h | ⟨cmds, hcmds, hlack⟩
      · exact absurd h hmagic
      · have hw := walk_of_visited_commands t header.ncmds _ 0 0 0 cmds hcmds
        have hz : last_addr (fun c => decide (c.command.cmd = LC_SYMTAB)) cmds 0 = 0
            ∨ last_addr (fun c => decide (c.segname = some SEG_LINKEDIT)) cmds 0 = 0
            ∨ last_addr (fun c => decide (c.segname = some SEG_TEXT)) cmds 0 = 0 := by
          rcases hlack with h | h | h
          · exact Or.inl (last_addr_of_none _ cmds 0 (fun c hc => by simpa using h c hc))
          · exact Or.inr (Or.inr
              (last_addr_of_none _ cmds 0 (fun c hc => by simpa using h c hc)))
          · exact Or.inr (Or.inl
              (last_addr_of_none _ cmds 0 (fun c hc => by simpa using h c hc)))
        have hl := locate_of_missing t remote_header
          (decide (header.magic = MH_MAGIC_64)) _ _ _ hz
        constructor
        · rw [scan_of_walk t remote_header symbol_name f header _ _ _ hpos hh hmagic hw, hl]
        · rw [image_symbol_table_of_walk t remote_header header _ _ _ hpos hh hmagic hw, hl]
  refine ⟨hscan.1, hscan.2, ?_⟩
  intro headers i rest result
  exact lookup_loop_skip t symbol_name headers i remote_header rest result f _ hscan.1

/-- An instance of `structural_rejection`: the header of the image at
`0x2000` announces two commands, the segments `__TEXT` and `__LINKEDIT`;
there is no `LC_SYMTAB` among them.  The scan returns 0 and the image loop
goes on with the image at `0x3000`. -/
theorem structural_rejection_witness :
    _scan_remote_image_for_symbol target_no_symtab 0x2000 name_foo false
        = Outcome.ret (0, false)
      ∧ image_symbol_table target_no_symtab 0x2000 = none
      ∧ lookup_loop target_no_symtab name_foo [0x2000, 0x3000] 0 [0x2000, 0x3000] 0 false
          = lookup_loop target_no_symtab name_foo [0x2000, 0x3000] 1 [0x3000] 0 false := by
  set_option maxRecDepth 100000 in
  have h := structural_rejection target_no_symtab 0x2000 name_foo false
    { magic := MH_MAGIC, ncmds := 2, flags := 0 } (by decide) (by decide!)
    (Or.inr ⟨[{ addr := 0x201c, command := { cmd := LC_SEGMENT, cmdsize := 56 },
                segname := some SEG_TEXT },
              { addr := 0x2054, command := { cmd := LC_SEGMENT, cmdsize := 56 },
                segname := some SEG_LINKEDIT }],
      by decide!, Or.inl (by decide)⟩)
  exact ⟨h.1, h.2.1, h.2.2 [0x2000, 0x3000] 0 [0x3000] 0⟩

/-- C9 (evaluation at the failing input).  The image at `0x2000` has a valid
magic and two load commands, both `LC_SEGMENT`: it lacks an `LC_SYMTAB`.  The
read of the 2048-byte window of the first segment name at `0x2024` fails, and
neither does the scanner return 0 nor does `lorgnette_lookup` go on: the
assertion in `_copyin_string` stops the process. -/
theorem structural_rejection_aborts :
    image_list target_short_no_symtab = some ([0x2000], 0)
      ∧ image_header target_short_no_symtab 0x2000
          = some { magic := MH_MAGIC, ncmds := 2, flags := 0 }
      ∧ (mach_vm_read_overwrite target_short_no_symtab 0x201c sizeof_load_command).map
          load_command.decode = some { cmd := LC_SEGMENT, cmdsize := 56 }
      ∧ (mach_vm_read_overwrite target_short_no_symtab 0x2054 sizeof_load_command).map
          load_command.decode = some { cmd := LC_SEGMENT, cmdsize := 56 }
      ∧ mach_vm_read_overwrite target_short_no_symtab 0x2024 kRemoteStringBufferSize = none
      ∧ _scan_remote_image_for_symbol target_short_no_symtab 0x2000 name_foo false
          = Outcome.abort
      ∧ lorgnette_lookup target_short_no_symtab name_foo = Outcome.abort := by
  set_option maxRecDepth 100000 in
  exact ⟨by decide!, by decide!, by decide!, by decide!, by decide!, by decide!,
    by decide!⟩

/-- C10 (evaluation at the failing input).  The address space ends `0x400`
bytes after the header: the header and the first load command are readable,
the read of the 2048-byte window of the segment name at `0x2024` fails, and
the scanner does not return 0: the assertion in `_copyin_string` stops the
process. -/
theorem string_read_failure_aborts :
    image_header target_short_mapping 0x2000
        = some { magic := MH_MAGIC, ncmds := 3, flags := 0 }
      ∧ (mach_vm_read_overwrite target_short_mapping 0x201c sizeof_load_command).map
          load_command.decode = some { cmd := LC_SEGMENT, cmdsize := 56 }
      ∧ mach_vm_read_overwrite target_short_mapping 0x2024 kRemoteStringBufferSize = none
      ∧ _scan_remote_image_for_symbol target_short_mapping 0x2000 name_foo false
          = Outcome.abort := by
  set_option maxRecDepth 100000 in
  exact ⟨by decide!, by decide!, by decide!, by decide!⟩

/-- What the scanner does on each kind of failed read: a failed read of the
header, of a load-command prefix, of the symtab command or a segment
command, or of a symbol entry makes the scanner return 0, and the image loop
of `lorgnette_lookup` then continues with the next image; a failed read of
the 2048-byte window of a segment name or of a symbol name stops the process
in the assertion of `_copyin_string`. -/
theorem read_failures (t : Task) (remote_header : Nat) (symbol_name : List Nat) (f : Bool)
    (hpos : remote_header ≠ 0) :
    (image_header t remote_header = none →
        _scan_remote_image_for_symbol t remote_header symbol_name f = Outcome.ret (0, f))
      ∧ (∀ (n command_addr s l x : Nat),
          mach_vm_read_overwrite t command_addr sizeof_load_command = none →
          walk_load_commands t (n + 1) command_addr s l x = Outcome.ret none)
      ∧ (∀ (b : Bool) (s l x : Nat),
          (mach_vm_read_overwrite t s sizeof_symtab_command = none
            ∨ mach_vm_read_overwrite t l
                (if b then sizeof_segment_command_64 else sizeof_segment_command) = none
            ∨ mach_vm_read_overwrite t x
                (if b then sizeof_segment_command_64 else sizeof_segment_command) = none) →
          locate_symbol_table t remote_header b s l x = none)
      ∧ (∀ (strings n sym_addr : Nat),
          mach_vm_read_overwrite t sym_addr sizeof_nlist_64 = none →
          scan_symbols_64 t symbol_name strings (n + 1) sym_addr = Outcome.ret 0)
      ∧ (∀ (strings n sym_addr : Nat),
          mach_vm_read_overwrite t sym_addr sizeof_nlist = none →
          scan_symbols_32 t symbol_name strings (n + 1) sym_addr = Outcome.ret 0)
      ∧ (∀ (header : mach_header), image_header t remote_header = some header →
          ¬ (header.magic ≠ MH_MAGIC ∧ header.magic ≠ MH_MAGIC_64) →
          (walk_load_commands t header.ncmds
              (first_command_addr remote_header (decide (header.magic = MH_MAGIC_64))) 0 0 0
                = Outcome.ret none
            ∨ (∃ s l x, walk_load_commands t header.ncmds
                (first_command_addr remote_header (decide (header.magic = MH_MAGIC_64))) 0 0 0
                  = Outcome.ret (some (s, l, x))
                ∧ locate_symbol_table t remote_header (decide (header.magic = MH_MAGIC_64))
                    s l x = none)
            ∨ (∃ st, image_symbol_table t remote_header = some st
                ∧ scan_symbols t symbol_name st = Outcome.ret 0)) →
          _scan_remote_image_for_symbol t remote_header symbol_name f
            = Outcome.ret (0, from_shared_cache header))
      ∧ (∀ (g : Bool),
          _scan_remote_image_for_symbol t remote_header symbol_name f = Outcome.ret (0, g) →
          ∀ (headers : List Nat) (i : Nat) (rest : List Nat) (result : Nat),
            lookup_loop t symbol_name headers i (remote_header :: rest) result f
              = lookup_loop t symbol_name headers (i + 1) rest 0 g)
      ∧ (∀ (pointer : Nat),
          mach_vm_read_overwrite t pointer kRemoteStringBufferSize = none →
          _copyin_string t pointer = Outcome.abort)
      ∧ (∀ (n command_addr s l x : Nat) (cb : List Nat),
          mach_vm_read_overwrite t command_addr sizeof_load_command = some cb →
          (load_command.decode cb).cmd = LC_SEGMENT
            ∨ (load_command.decode cb).cmd = LC_SEGMENT_64 →
          mach_vm_read_overwrite t ((command_addr + 8) % 2 ^ 64) kRemoteStringBufferSize
            = none →
          walk_load_commands t (n + 1) command_addr s l x = Outcome.abort)
      ∧ (∀ (strings n sym_addr : Nat) (sb : List Nat),
          mach_vm_read_overwrite t sym_addr sizeof_nlist_64 = some sb →
          (nlist.decode64 sb).n_value ≠ 0 →
          mach_vm_read_overwrite t ((strings + (nlist.decode64 sb).n_strx) % 2 ^ 64)
            kRemoteStringBufferSize = none →
          scan_symbols_64 t symbol_name strings (n + 1) sym_addr = Outcome.abort)
      ∧ (∀ (strings n sym_addr : Nat) (sb : List Nat),
          mach_vm_read_overwrite t sym_addr sizeof_nlist = some sb →
          (nlist.decode sb).n_value ≠ 0 →
          mach_vm_read_overwrite t ((strings + (nlist.decode sb).n_strx) % 2 ^ 32)
            kRemoteStringBufferSize = none →
          scan_symbols_32 t symbol_name strings (n + 1) sym_addr = Outcome.abort) := by
  refine ⟨?_, ?_, ?_, ?_, ?_, ?_, ?_, ?_, ?_, ?_, ?_⟩
  · exact scan_of_unreadable_header t remote_header symbol_name f hpos
  · intro n command_addr s l x hr
    rw [walk_load_commands, hr]
  · intro b s l x h
    exact locate_of_failed_read t remote_header b s l x h
  · intro strings n sym_addr hr
    rw [scan_symbols_64, hr]
  · intro strings n sym_addr hr
    rw [scan_symbols_32, hr]
  · intro header hh hmagic hcases
    rcases hcases with hw | ⟨s, l, x, hw, hl⟩ | ⟨st, hst, hloop⟩
    · exact scan_of_walk_failed t remote_header symbol_name f header hpos hh hmagic hw
    · rw [scan_of_walk t remote_header symbol_name f header s l x hpos hh hmagic hw, hl]
    · obtain ⟨header', hh', hscan⟩ := scan_of_symbol_table t remote_header st hst
      rw [hh, Option.some.injEq] at hh'
      rw [hscan symbol_name f, hloop, hh']
  · intro g hs headers i rest result
    exact lookup_loop_skip t symbol_name headers i remote_header rest result f g hs
  · intro pointer hr
    exact copyin_string_of_failed_read t pointer hr
  · intro n command_addr s l x cb hr hseg hname
    have hnot : ¬ (load_command.decode cb).cmd = LC_SYMTAB := by
      intro h2
      rw [h2] at hseg
      revert hseg
      decide
    rw [walk_load_commands, hr]
    simp only [if_neg hnot, if_pos hseg, sizeof_load_command,
      copyin_string_of_failed_read t _ hname]
  · intro strings n sym_addr sb hr hv hname
    rw [scan_symbols_64, hr]
    simp only [if_neg hv, copyin_string_of_failed_read t _ hname]
  · intro strings n sym_addr sb hr hv hname
    rw [scan_symbols_32, hr]
    simp only [if_neg hv, copyin_string_of_failed_read t _ hname]

/-- An instance of `read_failures`: no memory is mapped at `0x9000`; the scan
of a header address there returns 0 and leaves the flag as it was. -/
theorem read_failures_witness :
    _scan_remote_image_for_symbol target_main32 0x9000 name_foo true
      = Outcome.ret (0, true) := by
  set_option maxRecDepth 100000 in
  exact (read_failures target_main32 0x9000 name_foo true (by decide)).1 (by decide!)

/-- C11.  Exact result of a successful lookup: when the first matching image
has index `i` (the images `pre` come before it), matched value `V > 0` and a
header whose flag bit `0x80000000` gives `f`, `lorgnette_lookup` returns
`(R + (f ? shared_cache_slide : 0)) mod 2^64` with `R = V` for `i > 0`,
`R = V - 0x1000 + headers[0]` for `i = 0` and `V < 0x100000000`, and
`R = V - 0x100000000 + headers[0]` for `i = 0` and `V ≥ 0x100000000`; the
magic of image 0 does not occur. -/
theorem lookup_exact_result (t : Task) (symbol_name pre : List Nat) (image : Nat)
    (post : List Nat) (slide v : Nat) (c : Bool) (header : mach_header)
    (hname : symbol_name ≠ [])
    (hlist : image_list t = some (pre ++ image :: post, slide))
    (hpre : ∀ x ∈ pre, ∃ g, _scan_remote_image_for_symbol t x symbol_name false
      = Outcome.ret (0, g))
    (hh : image_header t image = some header)
    (hm : _scan_remote_image_for_symbol t image symbol_name false = Outcome.ret (v, c))
    (hv : 0 < v) :
    lorgnette_lookup t symbol_name
      = Outcome.ret
          (((if pre = [] then
              (if v < 0x100000000 then
                v + 2 ^ 64 - 0x1000 + (pre ++ image :: post).getD 0 0
               else v - 0x100000000 + (pre ++ image :: post).getD 0 0)
             else v)
            + (if header.flags &&& 0x80000000 = 0x80000000 then slide else 0)) % 2 ^ 64) := by
  have hc := scan_flag_of_header t image symbol_name false c v header hh hm
  have hlt := scan_value_lt t image symbol_name false c v hm
  rw [lookup_first_match t symbol_name pre image post slide v c hname hlist hpre hm hv]
  simp only [from_shared_cache, kImageFromSharedCacheFlag] at hc
  congr 1
  by_cases hf : header.flags &&& 0x80000000 = 0x80000000
  · have hc' : c = true := by simpa [hf] using hc
    simp only [hc', if_true, hf]
    by_cases hp : pre = []
    · simp only [hp, if_true]
      by_cases hlow : v < 0x100000000
      · simp only [hlow, if_true]
        omega
      · simp only [hlow, if_false]
        omega
    · simp only [hp, if_false]
  · have hc' : c = false := by simpa [hf] using hc
    simp only [hc', Bool.false_eq_true, if_false, hf, Nat.add_zero]
    by_cases hp : pre = []
    · simp only [hp, if_true]
      by_cases hlow : v < 0x100000000
      · simp only [hlow, if_true]
      · simp only [hlow, if_false]
        omega
    · simp only [hp, if_false]
      omega

/-- C11 (witness): the 64-bit main image at `0x100000000` stores `_foo` with
the value `0x2000`, below `0x100000000`: the base `0x1000` is subtracted. -/
theorem lookup_exact_result_witness :
    lorgnette_lookup target_low_value name_foo = Outcome.ret 0x100001000 := by
  set_option maxRecDepth 100000 in
  have h := lookup_exact_result target_low_value name_foo [] 0x100000000 [] 0 0x2000 false
    { magic := MH_MAGIC_64, ncmds := 3, flags := 0 }
    (by decide) (by decide!) (by simp) (by decide!) (by decide!) (by decide)
  rw [h]
  decide

/-- C18.  No bias for ordinary libraries: when the first matching image has
an index `i > 0` and a header without the flag bit `0x80000000`,
`lorgnette_lookup` returns the matched `n_value` itself; the load address of
that image, `headers[0]` and the shared-cache slide do not occur in the
result. -/
theorem no_bias_for_library (t : Task) (symbol_name pre : List Nat) (image : Nat)
    (post : List Nat) (slide v : Nat) (c : Bool) (header : mach_header)
    (hname : symbol_name ≠ [])
    (hlist : image_list t = some (pre ++ image :: post, slide))
    (hindex : pre ≠ [])
    (hpre : ∀ x ∈ pre, ∃ g, _scan_remote_image_for_symbol t x symbol_name false
      = Outcome.ret (0, g))
    (hh : image_header t image = some header)
    (hflag : header.flags &&& 0x80000000 ≠ 0x80000000)
    (hm : _scan_remote_image_for_symbol t image symbol_name false = Outcome.ret (v, c))
    (hv : 0 < v) :
    lorgnette_lookup t symbol_name = Outcome.ret v := by
  have hc := scan_flag_of_header t image symbol_name false c v header hh hm
  simp only [from_shared_cache, kImageFromSharedCacheFlag] at hc
  have hc' : c = false := by simpa [hflag] using hc
  rw [lookup_first_match t symbol_name pre image post slide v c hname hlist hpre hm hv, hc']
  simp [hindex]

/-- C18 (witness): the library at index 1 has no flags and stores `_foo` with
the value `0x1f00`; with the slide `0x5000` and the main image at `0x2000`
the lookup of `foo` returns `0x1f00`. -/
theorem no_bias_for_library_witness :
    lorgnette_lookup target_plain_library name_foo = Outcome.ret 0x1f00 := by
  set_option maxRecDepth 100000 in
  exact no_bias_for_library target_plain_library name_foo [0x2000] 0x3000 [] 0x5000 0x1f00
    false { magic := MH_MAGIC, ncmds := 3, flags := 0 }
    (by decide) (by decide!) (by decide)
    (by
      intro x hx
      rw [List.mem_singleton] at hx
      subst hx
      exact ⟨false, by decide!⟩)
    (by decide!) (by decide) (by decide!) (by decide)

/-- C16.  Remote C-string window: at a non-null address whose 2048-byte window
`bs` is readable, `_copyin_string` returns the bytes of the window before the
first NUL among its first 2047 bytes, and the first 2047 bytes when none of
them is NUL; the result contains no NUL and has at most 2047 bytes. -/
theorem copyin_string_window (t : Task) (pointer : Nat) (bs : List Nat)
    (hpos : 0 < pointer)
    (hr : mach_vm_read_overwrite t pointer 2048 = some bs) :
    ∃ r, _copyin_string t pointer = Outcome.ret r
      ∧ (0 ∈ bs.take 2047 → r = bs.takeWhile (fun b => b != 0))
      ∧ ((∀ b ∈ bs.take 2047, b ≠ 0) → r = bs.take 2047)
      ∧ 0 ∉ r ∧ r.length ≤ 2047 := by
  have hlen := read_length t pointer 2048 bs hr
  have hcut : strdup (bs.set (kRemoteStringBufferSize - 1) 0) = strdup (bs.take 2047) :=
    strdup_set_nul bs 2047 (by omega)
  refine ⟨strdup (bs.take 2047), ?_, ?_, ?_, strdup_no_nul _, ?_⟩
  · unfold _copyin_string
    rw [if_neg (by omega)]
    simp only [kRemoteStringBufferSize] at hcut ⊢
    rw [hr]
    simp only [hcut]
  · intro h
    exact strdup_take_of_nul bs 2047 h
  · intro h
    exact strdup_of_no_nul _ h
  · have := strdup_length_le (bs.take 2047)
    rw [List.length_take] at this
    omega

/-- C16 (witness): the window at `0x2201` in `target_main32` starts with
`_foo` followed by a NUL; the string read there is `_foo`. -/
theorem copyin_string_window_witness :
    ∃ r, _copyin_string target_main32 0x2201 = Outcome.ret r
      ∧ r = 95 :: name_foo ∧ 0 ∉ r ∧ r.length ≤ 2047 := by
  have hr : mach_vm_read_overwrite target_main32 0x2201 2048
      = some (fetch target_main32.mem 0x2201 2048) := by
    unfold mach_vm_read_overwrite
    rw [if_pos]
    set_option maxRecDepth 100000 in
    exact ⟨by decide, by decide!⟩
  obtain ⟨r, h1, h2, _, h4, h5⟩ := copyin_string_window target_main32 0x2201
    (fetch target_main32.mem 0x2201 2048) (by decide) hr
  set_option maxRecDepth 100000 in
  have hnul : 0 ∈ (fetch target_main32.mem 0x2201 2048).take 2047 := by
    decide!
  set_option maxRecDepth 100000 in
  have hstr : (fetch target_main32.mem 0x2201 2048).takeWhile (fun b => b != 0)
      = 95 :: name_foo := by
    decide!
  exact ⟨r, h1, by rw [h2 hnul, hstr], h4, h5⟩

/-- C13.  Shared-cache flag output: when the header of the image is readable,
a returning scan leaves `true` in `*imageFromSharedCache` exactly when bit
`0x80000000` of `header.flags` is set, whatever value it held before, for an
unsupported magic as well and whether the returned value is 0 or not; when
the header is not readable the scan returns with the flag unchanged. -/
theorem shared_cache_flag_output (t : Task) (remote_header : Nat) (symbol_name : List Nat)
    (f : Bool) (hpos : remote_header ≠ 0) :
    (∀ (header : mach_header) (v : Nat) (c : Bool),
        image_header t remote_header = some header →
        _scan_remote_image_for_symbol t remote_header symbol_name f = Outcome.ret (v, c) →
        (c = true ↔ header.flags &&& 0x80000000 = 0x80000000))
      ∧ (∀ (header : mach_header), image_header t remote_header = some header →
          header.magic ≠ MH_MAGIC ∧ header.magic ≠ MH_MAGIC_64 →
          _scan_remote_image_for_symbol t remote_header symbol_name f
            = Outcome.ret (0, decide (header.flags &&& 0x80000000 = 0x80000000)))
      ∧ (∀ (header : mach_header) (g : Bool), image_header t remote_header = some header →
          _scan_remote_image_for_symbol t remote_header symbol_name g
            = _scan_remote_image_for_symbol t remote_header symbol_name f)
      ∧ (image_header t remote_header = none →
          _scan_remote_image_for_symbol t remote_header symbol_name f
            = Outcome.ret (0, f)) := by
  refine ⟨?_, ?_, ?_, ?_⟩
  · intro header v c hh hs
    have hc := scan_flag_of_header t remote_header symbol_name f c v header hh hs
    rw [hc]
    simp [from_shared_cache, kImageFromSharedCacheFlag]
  · intro header hh hmagic
    rw [scan_of_bad_magic t remote_header symbol_name f header hpos hh hmagic]
    simp [from_shared_cache, kImageFromSharedCacheFlag]
  · intro header g hh
    exact scan_flag_irrelevant t remote_header symbol_name g f header hh
  · intro hh
    exact scan_of_unreadable_header t remote_header symbol_name f hpos hh

/-- C13 (witness): the image of `target_cache_main` carries the flag and does
not define `foo`; the scan returns 0 and sets the flag although it was
`false` before. -/
theorem shared_cache_flag_output_witness :
    _scan_remote_image_for_symbol target_cache_main 0x2000 name_foo false
        = Outcome.ret (0, true)
      ∧ (true = true ↔ (0x80000000 : Nat) &&& 0x80000000 = 0x80000000) := by
  set_option maxRecDepth 100000 in
  have hs : _scan_remote_image_for_symbol target_cache_main 0x2000 name_foo false
      = Outcome.ret (0, true) := by
    decide!
  set_option maxRecDepth 100000 in
  exact ⟨hs, (shared_cache_flag_output target_cache_main 0x2000 name_foo false
    (by decide)).1 { magic := MH_MAGIC, ncmds := 3, flags := 0x80000000 } 0 true
    (by decide!) hs⟩

/-- C14.  Load-command walk of an image with valid magic: the first command
is read at `remote_header + 28` (32-bit) or `remote_header + 32` (64-bit);
the walk runs to its end exactly when there are `ncmds` commands chained by
`a_(k+1) = a_k + cmdsize_k` whose reads succeed, and then records for
`LC_SYMTAB`, `__LINKEDIT` and `__TEXT` the address of a visited command of
that kind (0 when there is none); otherwise it stops on the failed prefix
read or in the assertion of `_copyin_string`.  The walk is a total function
of its input: `ncmds` bounds the number of commands read, whatever the
`cmdsize` fields are. -/
theorem load_command_walk (t : Task) (remote_header : Nat) (header : mach_header)
    (hpos : remote_header ≠ 0)
    (hh : image_header t remote_header = some header)
    (hmagic : header.magic = MH_MAGIC ∨ header.magic = MH_MAGIC_64) :
    first_command_addr remote_header (decide (header.magic = MH_MAGIC_64))
        = (remote_header + (if header.magic = MH_MAGIC_64 then 32 else 28)) % 2 ^ 64
      ∧ (∀ cmds,
          visited_commands t header.ncmds
              (first_command_addr remote_header (decide (header.magic = MH_MAGIC_64)))
            = Outcome.ret (some cmds)
          ↔ cmds.length = header.ncmds
            ∧ command_chain t
                (first_command_addr remote_header (decide (header.magic = MH_MAGIC_64)))
                cmds)
      ∧ (∀ cmds,
          visited_commands t header.ncmds
              (first_command_addr remote_header (decide (header.magic = MH_MAGIC_64)))
            = Outcome.ret (some cmds) →
          ∃ s l x,
            walk_load_commands t header.ncmds
                (first_command_addr remote_header (decide (header.magic = MH_MAGIC_64)))
                0 0 0
              = Outcome.ret (some (s, l, x))
            ∧ recorded_for (fun c => c.command.cmd = LC_SYMTAB) cmds s
            ∧ recorded_for (fun c => c.segname = some SEG_LINKEDIT) cmds l
            ∧ recorded_for (fun c => c.segname = some SEG_TEXT) cmds x)
      ∧ ((∀ cmds,
          visited_commands t header.ncmds
              (first_command_addr remote_header (decide (header.magic = MH_MAGIC_64)))
            ≠ Outcome.ret (some cmds)) →
          walk_load_commands t header.ncmds
              (first_command_addr remote_header (decide (header.magic = MH_MAGIC_64)))
              0 0 0
            = Outcome.ret none
          ∨ walk_load_commands t header.ncmds
              (first_command_addr remote_header (decide (header.magic = MH_MAGIC_64)))
              0 0 0
            = Outcome.abort)
      ∧ (∀ (symbol_name : List Nat) (f : Bool),
          (walk_load_commands t header.ncmds
              (first_command_addr remote_header (decide (header.magic = MH_MAGIC_64)))
              0 0 0 = Outcome.ret none →
            _scan_remote_image_for_symbol t remote_header symbol_name f
              = Outcome.ret (0, from_shared_cache header))
          ∧ (walk_load_commands t header.ncmds
              (first_command_addr remote_header (decide (header.magic = MH_MAGIC_64)))
              0 0 0 = Outcome.abort →
            _scan_remote_image_for_symbol t remote_header symbol_name f = Outcome.abort)
          ∧ (∀ s l x, walk_load_commands t header.ncmds
              (first_command_addr remote_header (decide (header.magic = MH_MAGIC_64)))
              0 0 0 = Outcome.ret (some (s, l, x)) →
            _scan_remote_image_for_symbol t remote_header symbol_name f
              = match locate_symbol_table t remote_header
                    (decide (header.magic = MH_MAGIC_64)) s l x with
                | none => Outcome.ret (0, from_shared_cache header)
                | some st =>
                  match scan_symbols t symbol_name st with
                  | Outcome.abort => Outcome.abort
                  | Outcome.undef => Outcome.undef
                  | Outcome.ret v => Outcome.ret (v, from_shared_cache header))) := by
  have hvalid : ¬ (header.magic ≠ MH_MAGIC ∧ header.magic ≠ MH_MAGIC_64) := by
    rintro ⟨h1, h2⟩
    rcases hmagic with h | h
    · exact h1 h
    · exact h2 h
  refine ⟨?_, ?_, ?_, ?_, ?_⟩
  · unfold first_command_addr sizeof_mach_header_64 sizeof_mach_header
    by_cases h64 : header.magic = MH_MAGIC_64
    · simp [h64]
    · simp [h64]
  · intro cmds
    exact visited_commands_iff_chain t header.ncmds _ cmds
  · intro cmds hv
    refine ⟨_, _, _, walk_of_visited_commands t header.ncmds _ 0 0 0 cmds hv, ?_, ?_, ?_⟩
    · rcases last_addr_recorded (fun c => decide (c.command.cmd = LC_SYMTAB)) cmds 0 with
        ⟨h1, h2⟩ | ⟨c, hc, h1, h2⟩
      · exact Or.inl ⟨h1, fun c hc => by simpa using h2 c hc⟩
      · exact Or.inr ⟨c, hc, by simpa using h1, h2⟩
    · rcases last_addr_recorded (fun c => decide (c.segname = some SEG_LINKEDIT)) cmds 0 with
        ⟨h1, h2⟩ | ⟨c, hc, h1, h2⟩
      · exact Or.inl ⟨h1, fun c hc => by simpa using h2 c hc⟩
      · exact Or.inr ⟨c, hc, by simpa using h1, h2⟩
    · rcases last_addr_recorded (fun c => decide (c.segname = some SEG_TEXT)) cmds 0 with
        ⟨h1, h2⟩ | ⟨c, hc, h1, h2⟩
      · exact Or.inl ⟨h1, fun c hc => by simpa using h2 c hc⟩
      · exact Or.inr ⟨c, hc, by simpa using h1, h2⟩
  · intro hnone
    obtain ⟨h1, h2, h3⟩ := walk_of_visited_stopped t header.ncmds
      (first_command_addr remote_header (decide (header.magic = MH_MAGIC_64))) 0 0 0
    cases hv : visited_commands t header.ncmds
        (first_command_addr remote_header (decide (header.magic = MH_MAGIC_64))) with
    | abort => exact Or.inr (h2 hv)
    | undef => exact absurd (h3 hv) (walk_ne_undef t _ _ _ _ _)
    | ret r =>
      cases r with
      | none => exact Or.inl (h1 hv)
      | some cmds => exact absurd hv (hnone cmds)
  · intro symbol_name f
    refine ⟨?_, ?_, ?_⟩
    · intro hw
      exact scan_of_walk_failed t remote_header symbol_name f header hpos hh hvalid hw
    · intro hw
      exact scan_of_walk_abort t remote_header symbol_name f header hpos hh hvalid hw
    · intro s l x hw
      exact scan_of_walk t remote_header symbol_name f header s l x hpos hh hvalid hw

/-- C14 (witness): the first command of the image announces `cmdsize = 0`;
the walk reads it three times at `0x201c` and ends with `__TEXT` recorded
there and nothing recorded for `LC_SYMTAB` and `__LINKEDIT`. -/
theorem load_command_walk_witness :
    ∃ s l x,
      walk_load_commands target_zero_cmdsize 3 (first_command_addr 0x2000 false) 0 0 0
          = Outcome.ret (some (s, l, x))
        ∧ recorded_for (fun c => c.command.cmd = LC_SYMTAB)
            (List.replicate 3 { addr := 0x201c, command := { cmd := LC_SEGMENT, cmdsize := 0 },
                                segname := some SEG_TEXT }) s
        ∧ recorded_for (fun c => c.segname = some SEG_LINKEDIT)
            (List.replicate 3 { addr := 0x201c, command := { cmd := LC_SEGMENT, cmdsize := 0 },
                                segname := some SEG_TEXT }) l
        ∧ recorded_for (fun c => c.segname = some SEG_TEXT)
            (List.replicate 3 { addr := 0x201c, command := { cmd := LC_SEGMENT, cmdsize := 0 },
                                segname := some SEG_TEXT }) x := by
  set_option maxRecDepth 100000 in
  exact (load_command_walk target_zero_cmdsize 0x2000
    { magic := MH_MAGIC, ncmds := 3, flags := 0 } (by decide) (by decide!)
    (Or.inl rfl)).2.2.1
    (List.replicate 3 { addr := 0x201c, command := { cmd := LC_SEGMENT, cmdsize := 0 },
                        segname := some SEG_TEXT })
    (by decide!)

/-- C12 (counterexample).  For the 32-bit image at `0x100002000` (symbol
table at offset `0x100`, file slide 0) the scanner computes the entry address
in `uint32_t`: entry 0 is read at `0x2100`, not at the 64-bit address
`0x100002100` where the entry `_foo` lies, and the scan finds nothing. -/
theorem file_slide_counterexample :
    image_symbol_table target_high_image32 0x100002000
        = some { sixtyfourbit := false, strings := 0x2200, sym_addr := 0x2100, nsyms := 1 }
      ∧ entry_addr { sixtyfourbit := false, strings := 0x2200, sym_addr := 0x2100,
                     nsyms := 1 } 0 = 0x2100
      ∧ 0x2100 ≠ 0x100002000 + 0x100 + (0x1100 - 0x1000 - 0x100) + 0 * 12
      ∧ (mach_vm_read_overwrite target_high_image32 0x100002100 sizeof_nlist).map
          nlist.decode = some { n_strx := 1, n_value := 0x1f00 }
      ∧ _scan_remote_image_for_symbol target_high_image32 0x100002000 name_foo false
          = Outcome.ret (0, false) := by
  set_option maxRecDepth 100000 in
  exact ⟨by decide!, by decide, by decide, by decide!, by decide!⟩

/-- C12 (amended).  File-slide translation: with
`file_slide = linkedit.vmaddr - text.vmaddr - linkedit.fileoff`, a 64-bit
image has its entry `i` read at
`(remote_header + symoff + file_slide + 16 i) mod 2^64` and the name of an
entry at `(remote_header + stroff + file_slide + n_strx) mod 2^64`; a 32-bit
image has them read at `(H + symoff + file_slide + 12 i) mod 2^32` and
`(H + stroff + file_slide + n_strx) mod 2^32`, where `H` is `remote_header`
truncated to 32 bits. -/
theorem file_slide_translation (t : Task) (remote_header : Nat) (header : mach_header)
    (s l x : Nat) (stb lb xb : List Nat)
    (hpos : remote_header ≠ 0)
    (hh : image_header t remote_header = some header)
    (hmagic : header.magic = MH_MAGIC ∨ header.magic = MH_MAGIC_64)
    (hw : walk_load_commands t header.ncmds
      (first_command_addr remote_header (decide (header.magic = MH_MAGIC_64))) 0 0 0
        = Outcome.ret (some (s, l, x)))
    (hs : s ≠ 0) (hl : l ≠ 0) (hx : x ≠ 0)
    (hstb : mach_vm_read_overwrite t s sizeof_symtab_command = some stb)
    (hlb : mach_vm_read_overwrite t l
      (if header.magic = MH_MAGIC_64 then sizeof_segment_command_64
        else sizeof_segment_command) = some lb)
    (hxb : mach_vm_read_overwrite t x
      (if header.magic = MH_MAGIC_64 then sizeof_segment_command_64
        else sizeof_segment_command) = some xb) :
    ∃ st, image_symbol_table t remote_header = some st
      ∧ st.nsyms = (symtab_command.decode stb).nsyms
      ∧ (∀ (symbol_name : List Nat),
          scan_symbols t symbol_name st = scan_symbols_from t symbol_name st st.nsyms 0)
      ∧ (header.magic = MH_MAGIC_64 →
          (∀ i : Nat, (entry_addr st i : Int)
            = ((remote_header : Int) + (symtab_command.decode stb).symoff
                + ((segment_command.decode64 lb).vmaddr - (segment_command.decode64 xb).vmaddr
                    - (segment_command.decode64 lb).fileoff)
                + 16 * i) % 2 ^ 64)
          ∧ (∀ sym : nlist, (symbol_name_addr st sym : Int)
            = ((remote_header : Int) + (symtab_command.decode stb).stroff
                + ((segment_command.decode64 lb).vmaddr - (segment_command.decode64 xb).vmaddr
                    - (segment_command.decode64 lb).fileoff)
                + sym.n_strx) % 2 ^ 64))
      ∧ (header.magic = MH_MAGIC →
          (∀ i : Nat, (entry_addr st i : Int)
            = (((remote_header % 2 ^ 32 : Nat) : Int) + (symtab_command.decode stb).symoff
                + ((segment_command.decode lb).vmaddr - (segment_command.decode xb).vmaddr
                    - (segment_command.decode lb).fileoff)
                + 12 * i) % 2 ^ 32)
          ∧ (∀ sym : nlist, (symbol_name_addr st sym : Int)
            = (((remote_header % 2 ^ 32 : Nat) : Int) + (symtab_command.decode stb).stroff
                + ((segment_command.decode lb).vmaddr - (segment_command.decode xb).vmaddr
                    - (segment_command.decode lb).fileoff)
                + sym.n_strx) % 2 ^ 32)) := by
  have hvalid : ¬ (header.magic ≠ MH_MAGIC ∧ header.magic ≠ MH_MAGIC_64) := by
    rintro ⟨h1, h2⟩
    rcases hmagic with h | h
    · exact h1 h
    · exact h2 h
  have hne : MH_MAGIC ≠ MH_MAGIC_64 := by decide
  have hist := image_symbol_table_of_walk t remote_header header s l x hpos hh hvalid hw
  have hzero : ¬ (s = 0 ∨ l = 0 ∨ x = 0) := by
    rintro (h | h | h)
    · exact hs h
    · exact hl h
    · exact hx h
  unfold locate_symbol_table at hist
  rw [if_neg hzero] at hist
  simp only [hstb] at hist
  by_cases h64 : header.magic = MH_MAGIC_64
  · simp only [h64, if_true, decide_True] at hist hlb hxb
    simp only [hlb, hxb] at hist
    refine ⟨_, hist, rfl, ?_, ?_, ?_⟩
    · intro symbol_name
      exact scan_symbols_eq_from t symbol_name _
        (image_symbol_table_lt t remote_header _ hist)
    · intro _
      constructor
      · intro i
        simp only [entry_addr, entry_size, address_modulus, if_true, sizeof_nlist_64]
        push_cast
        omega
      · intro sym
        simp only [symbol_name_addr, address_modulus, if_true]
        push_cast
        omega
    · intro h32
      rw [h32] at h64
      exact absurd h64 hne
  · simp only [h64, if_false, decide_False] at hist hlb hxb
    simp only [hlb, hxb] at hist
    refine ⟨_, hist, rfl, ?_, ?_, ?_⟩
    · intro symbol_name
      exact scan_symbols_eq_from t symbol_name _
        (image_symbol_table_lt t remote_header _ hist)
    · intro h
      exact absurd h h64
    · intro _
      constructor
      · intro i
        simp only [entry_addr, entry_size, address_modulus, Bool.false_eq_true, if_false,
          sizeof_nlist]
        push_cast
        omega
      · intro sym
        simp only [symbol_name_addr, address_modulus, Bool.false_eq_true, if_false]
        push_cast
        omega

/-- C12 (witness): the 64-bit image of `target_low_value` at `0x100000000`
has two symbol entries; entry 1 is read 16 bytes after entry 0. -/
theorem file_slide_translation_witness :
    ∃ st, image_symbol_table target_low_value 0x100000000 = some st
      ∧ st.nsyms
          = (symtab_command.decode (fetch target_low_value.mem 0x1000000b0 24)).nsyms
      ∧ (entry_addr st 1 : Int)
          = (((0x100000000 : Nat) : Int)
              + (symtab_command.decode (fetch target_low_value.mem 0x1000000b0 24)).symoff
              + ((segment_command.decode64
                    (fetch target_low_value.mem 0x100000068 72)).vmaddr
                  - (segment_command.decode64
                    (fetch target_low_value.mem 0x100000020 72)).vmaddr
                  - (segment_command.decode64
                    (fetch target_low_value.mem 0x100000068 72)).fileoff)
              + 16 * ((1 : Nat) : Int)) % 2 ^ 64 := by
  set_option maxRecDepth 100000 in
  obtain ⟨st, h1, h2, _, h4, _⟩ := file_slide_translation target_low_value 0x100000000
    { magic := MH_MAGIC_64, ncmds := 3, flags := 0 } 0x1000000b0 0x100000068 0x100000020
    (fetch target_low_value.mem 0x1000000b0 24)
    (fetch target_low_value.mem 0x100000068 72)
    (fetch target_low_value.mem 0x100000020 72)
    (by decide) (by decide!) (Or.inr rfl) (by decide!) (by decide) (by decide) (by decide)
    (by decide!) (by decide!) (by decide!)
  exact ⟨st, h1, h2, (h4 rfl).1 1⟩

/-- C15 (evaluation at the failing input).  The `task_info()` query succeeds
and the all-images record it points to cannot be read: in both formats the
enumerator does not return a failure code, `goto fail` lets it free the
pointer `array` that has not been initialised yet, and `lorgnette_lookup`
does not return 0. -/
theorem enumerator_first_read_failure :
    mach_vm_read_overwrite target_unreadable_registry64 0x9000 160 = none
      ∧ _image_headers_in_task target_unreadable_registry64 false 0 0 = Outcome.undef
      ∧ lorgnette_lookup target_unreadable_registry64 name_foo = Outcome.undef
      ∧ mach_vm_read_overwrite target_unreadable_registry32 0x9000 84 = none
      ∧ _image_headers_in_task target_unreadable_registry32 false 0 0 = Outcome.undef
      ∧ lorgnette_lookup target_unreadable_registry32 name_foo = Outcome.undef := by
  set_option maxRecDepth 100000 in
  exact ⟨by decide!, by decide!, by decide!, by decide!, by decide!, by decide!⟩

/-- C17 (evaluation at the failing input).  The registry lists one image
during the first enumerator call and two images during the second: the list
is sized for the count 1, the second call sets the count to 2 and writes two
addresses, one past the end of the list, which is undefined.  In the
opposite order the list is sized for 2 and only one address is written and
scanned. -/
theorem snapshot_count_changes :
    (_image_headers_in_task target_main32 false 0 0).ret_count = some 1
      ∧ _image_headers_in_task target_plain_library true 1 0x5000
          = Outcome.ret { err := KERN_SUCCESS, count := 2, headers := [0x2000, 0x3000],
                          shared_cache_slide := 0x5000 }
      ∧ lorgnette_lookup_changing target_main32 target_plain_library name_foo
          = Outcome.undef
      ∧ (_image_headers_in_task target_plain_library false 0 0).ret_count = some 2
      ∧ _image_headers_in_task target_main32 true 2 0x5000
          = Outcome.ret { err := KERN_SUCCESS, count := 1, headers := [0x2000],
                          shared_cache_slide := 0x5000 } := by
  set_option maxRecDepth 100000 in
  exact ⟨by decide!, by decide!, by decide!, by decide!, by decide!⟩

end Lorgnette
